import Mathlib

/-!
# Verification of the series-pipeline episode/translation tooling

Shallow embedding of the Python sources of `series-pipeline`:

* `src/processors/translation_qa.py`   (QA validator, auto-fix)
* `src/stage_02_translate.py`          (`enforce_name_consistency`)
* `src/processors/glossary_manager.py` (glossary term store)
* `src/stage_02a_translation_qa.py`    (auto-fix retry loop)
* `src/processors/llm_episode_splitter.py` (episode splitter)

Python strings are modelled as `List Char` (`Str`); Python `str` helpers
(`strip`, `split`, `replace`, `find`, slicing) are re-implemented below with
Python's semantics.  Python whitespace (`str.strip`, regex `\s`) is modelled
by the ASCII whitespace characters; the exotic Unicode whitespace code points
(U+0085, U+00A0, ...) do not occur in any text the claims touch.
LLM calls (`google.generativeai`) are modelled as oracle parameters: the
value an external call would return is passed in explicitly, with `none`
standing for the exception / failure path of the Python `try`/`except`.
-/

abbrev Str := List Char

/-- Python whitespace (`str.split()`, `str.strip()`, regex `\s`) restricted to
its ASCII part. -/
def pyIsSpace (c : Char) : Bool :=
  c = ' ' || c = '\t' || c = '\n' || c = '\r' || c = '\x0b' || c = '\x0c'

/-- `str.lstrip()` -/
def pyLstrip (s : Str) : Str := s.dropWhile pyIsSpace

/-- `str.rstrip()` -/
def pyRstrip (s : Str) : Str := (s.reverse.dropWhile pyIsSpace).reverse

/-- `str.strip()` -/
def pyStrip (s : Str) : Str := pyRstrip (pyLstrip s)

/-- `str.lstrip('﻿')` (BOM removal). -/
def pyLstripBOM (s : Str) : Str := s.dropWhile (· = '﻿')

/-- Does `s` start with `pre`? -/
def strStartsWith : Str → Str → Bool
  | _, [] => true
  | [], _ :: _ => false
  | c :: cs, p :: ps => c = p && strStartsWith cs ps

/-- Python `haystack.find(needle)`: index of the leftmost occurrence
(`0` for the empty needle), `none` when absent (Python returns `-1`). -/
def pyFind : Str → Str → Option Nat
  | s, needle =>
    if strStartsWith s needle then some 0
    else
      match s with
      | [] => none
      | _ :: cs => (pyFind cs needle).map (· + 1)

/-- Python `needle in haystack` (substring test). -/
def pyContains (hay needle : Str) : Bool := (pyFind hay needle).isSome

/-- Python `haystack.find(needle, start)`. -/
def pyFindFrom (hay needle : Str) (start : Nat) : Option Nat :=
  (pyFind (hay.drop start) needle).map (· + start)

/-- Python slicing `s[a:b]` for `0 ≤ a ≤ b` (the only form used here). -/
def pySlice (s : Str) (a b : Nat) : Str := (s.drop a).take (b - a)

/-- Python `s.replace(old, new)` for the (degenerate) empty pattern:
`"ab".replace("", "X") = "XaXbX"`. -/
def pyReplaceEmpty (new : Str) : Str → Str
  | [] => new
  | c :: cs => new ++ c :: pyReplaceEmpty new cs

/-- Python `s.replace(old, new)` (all occurrences, left to right). -/
def pyReplace (s old new : Str) : Str :=
  if h : old = [] then pyReplaceEmpty new s
  else
    match s with
    | [] => []
    | c :: cs =>
      if strStartsWith (c :: cs) old then
        new ++ pyReplace ((c :: cs).drop old.length) old new
      else
        c :: pyReplace cs old new
  termination_by s.length
  decreasing_by
  · simp only [List.length_drop, List.length_cons]
    have : 0 < old.length := List.length_pos.mpr h
    omega
  · simp

/-- Python `s.replace(old, new, 1)` (first occurrence only), for a nonempty
pattern (the only use, in `_fix_language_mixing`, has a nonempty pattern). -/
def pyReplace1 (s old new : Str) : Str :=
  match pyFind s old with
  | none => s
  | some i => s.take i ++ new ++ s.drop (i + old.length)

/-- Python `s.split(sep)` for a one-character separator. -/
def splitChar (sep : Char) (s : Str) : List Str :=
  match s with
  | [] => [[]]
  | c :: cs =>
    let rest := splitChar sep cs
    if c = sep then [] :: rest
    else
      match rest with
      | [] => [[c]]
      | l :: ls => (c :: l) :: ls

/-- Python `s.split('\n')`. -/
def splitLines (s : Str) : List Str := splitChar '\n' s

/-- Python `s.split(sep, 1)` when `sep` occurs in `s`: the prefix before the
first occurrence and everything after it. -/
def splitOnce (s : Str) (sep : Char) : Option (Str × Str) :=
  match pyFind s [sep] with
  | none => none
  | some i => some (s.take i, s.drop (i + 1))

/-- Python `'\n'.join(lines)`. -/
def joinLines : List Str → Str
  | [] => []
  | [l] => l
  | l :: ls => l ++ '\n' :: joinLines ls

/-- Python `s.split()` (split on whitespace runs, dropping empty pieces). -/
def pySplitWS (s : Str) : List Str :=
  let rec go : Str → List Str
    | [] => []
    | c :: cs =>
      if pyIsSpace c then go cs
      else
        match go cs with
        | [] => [[c]]
        | w :: ws =>
          match cs with
          | [] => [[c]]
          | d :: _ => if pyIsSpace d then [c] :: w :: ws else (c :: w) :: ws
  go s

def isDigit (c : Char) : Bool := '0' ≤ c && c ≤ '9'

/-- Numeric value of a digit string (`int(...)` on a `\d+` capture). -/
def digitsToNat (s : Str) : Nat :=
  s.foldl (fun n c => n * 10 + (c.toNat - '0'.toNat)) 0

/-- First `\d+` run of a string (`re.findall(r'\d+', s)[0]` when present). -/
def firstDigitRun (s : Str) : Option Nat :=
  let rec go : Str → Option Nat
    | [] => none
    | c :: cs =>
      if isDigit c then some (digitsToNat (c :: cs.takeWhile isDigit))
      else go cs
  go s

/-- Association list with Python-`dict` update semantics: assigning to an
existing key updates it in place (iteration keeps first-insertion order),
otherwise the binding is appended. -/
def dictInsert {α : Type} (m : List (String × α)) (k : String) (v : α) :
    List (String × α) :=
  match m with
  | [] => [(k, v)]
  | (k', v') :: rest =>
    if k' = k then (k, v) :: rest else (k', v') :: dictInsert rest k v

def dictGet {α : Type} (m : List (String × α)) (k : String) : Option α :=
  match m with
  | [] => none
  | (k', v) :: rest => if k' = k then some v else dictGet rest k

/-- String-level wrappers (embedded data keeps `String` fields). -/
def sContains (hay needle : String) : Bool := pyContains hay.data needle.data

def sReplace (s old new : String) : String := (pyReplace s.data old.data new.data).asString

def sStrip (s : String) : String := (pyStrip s.data).asString

/-! ## `src/processors/translation_qa.py` -/

namespace TranslationQA

/-- Unicode range for Korean syllables (`[가-힯]`). -/
def koreanSyllable (c : Char) : Bool :=
  0xAC00 ≤ c.toNat && c.toNat ≤ 0xD7AF

/-- `KOREAN_ONOMATOPOEIA` (membership set; listed in source order). -/
def KOREAN_ONOMATOPOEIA : List String :=
  ["킁킁", "쿵", "쾅", "짝짝", "딩동", "띵동", "뚝뚝", "졸졸", "철썩", "쨍그랑",
   "빵", "펑", "탁", "딱", "쩝쩝", "찍찍", "끽끽", "끼익", "삐걱", "덜컹",
   "쿵쿵", "쾅쾅", "두근두근", "콩닥콩닥",
   "훗", "흥", "헉", "엉엉", "흑흑", "앙앙", "깔깔", "히히", "호호", "끄덕끄덕",
   "푸하하", "껄껄", "키득키득", "끙끙", "쩝", "푸", "헐", "엥", "에잇",
   "살금살금", "후다닥", "뚜벅뚜벅", "터벅터벅", "휘청휘청", "비틀비틀",
   "아장아장", "뒤뚱뒤뚱", "사뿐사뿐"]

/-- `SIMILAR_CHARACTERS`: correct character → commonly-confused variants. -/
def SIMILAR_CHARACTERS : List (Char × List Char) :=
  [('賢', ['炫', '玄', '鉉', '泫', '眩']),
   ('俊', ['浚', '峻', '駿', '濬']),
   ('敏', ['民', '珉', '旻', '玟', '憫']),
   ('趙', ['曹', '兆', '朝']),
   ('輝', ['煇', '暉', '徽', '揮']),
   ('仁', ['仁', '寅', '認']),
   ('秀', ['洙', '壽', '修', '守']),
   ('赫', ['赫', '爀', '嚇']),
   ('允', ['尹', '潤', '倫']),
   ('濟', ['済', '祭', '制']),
   ('雅', ['亞', '娥', '芽'])]

/-- `QAIssue` dataclass. -/
structure QAIssue where
  type : String
  severity : String
  text : String
  message : String
  position : Option Nat := none
  expected : Option String := none
  context : Option String := none
  deriving DecidableEq, Repr

/-- `QAResult` dataclass (the `issues` list and derived flags). -/
structure QAResult where
  passed : Bool
  issues : List QAIssue
  episodeNumber : Option Nat := none
  deriving Repr

/-- Glossary term as consumed by `_build_lookup_tables`
(`term.get('known_wrong_variants', [])` defaults to `[]`). -/
structure GTerm where
  original : String
  translation : String
  category : String
  context : String := ""
  knownWrongVariants : List String := []
  deriving Repr

/-- The glossary dict (`{'terms': [...]}`dict). -/
structure Glossary where
  terms : List GTerm
  deriving Repr

structure CharTerm where
  original : String
  translation : String
  context : String
  knownWrongVariants : List String
  deriving Repr

/-- `TranslationQAValidator` after `__init__` (lookup tables built). -/
structure Validator where
  sourceLang : String
  targetLang : String
  glossary : Glossary
  skipLanguageMixing : Bool
  termMap : List (String × String)
  knownVariants : List (String × String)
  charTerms : List CharTerm

/-- Python truthiness of an optional string field (`if existing:` style tests:
`None` and `''` are falsy). -/
def truthyOpt : Option String → Bool
  | some s => s ≠ ""
  | none => false

/-- ASCII lowering (`str.lower()`); the language names involved are ASCII. -/
def pyLower (s : String) : String := (s.data.map Char.toLower).asString

/-- `TranslationQAValidator._normalize_language`. -/
def normalizeLanguage (lang : String) : String :=
  let l := pyLower lang
  if l = "korean" then "korean"
  else if l = "japanese" then "japanese"
  else if l = "taiwanese" then "chinese"
  else if l = "traditional_chinese" then "chinese"
  else if l = "chinese" then "chinese"
  else if l = "mandarin" then "chinese"
  else l

/-- `TranslationQAValidator._build_lookup_tables`. -/
def buildTables (terms : List GTerm) :
    List (String × String) × List (String × String) × List CharTerm :=
  terms.foldl
    (fun acc term =>
      let (tm, kv, ct) := acc
      if term.original ≠ "" && term.translation ≠ "" then
        let tm := dictInsert tm term.original term.translation
        let kv := term.knownWrongVariants.foldl
          (fun kv variant =>
            if variant ≠ "" && variant ≠ term.translation then
              dictInsert kv variant term.translation
            else kv) kv
        let ct :=
          if term.category = "character" then
            ct ++ [⟨term.original, term.translation, term.context, term.knownWrongVariants⟩]
          else ct
        (tm, kv, ct)
      else acc)
    ([], [], [])

/-- `TranslationQAValidator.__init__`. -/
def mkValidator (sourceLang : String) (targetLang : String) (glossary : Glossary)
    (skipLanguageMixing : Option Bool) : Validator :=
  let skip :=
    match skipLanguageMixing with
    | some b => b
    | none => normalizeLanguage sourceLang = normalizeLanguage targetLang
  let (tm, kv, ct) := buildTables glossary.terms
  { sourceLang := sourceLang, targetLang := targetLang, glossary := glossary,
    skipLanguageMixing := skip, termMap := tm, knownVariants := kv, charTerms := ct }

/-- Maximal runs of Korean syllables with their start offsets
(`re.compile(r'[가-힯]+').finditer(text)`). -/
def koreanRunsGo (i : Nat) (cur : Option (Nat × Str)) : Str → List (Nat × String)
  | [] =>
    match cur with
    | some (p, run) => [(p, run.reverse.asString)]
    | none => []
  | c :: cs =>
    if koreanSyllable c then
      match cur with
      | some (p, run) => koreanRunsGo (i + 1) (some (p, c :: run)) cs
      | none => koreanRunsGo (i + 1) (some (i, [c])) cs
    else
      match cur with
      | some (p, run) => (p, run.reverse.asString) :: koreanRunsGo (i + 1) none cs
      | none => koreanRunsGo (i + 1) none cs

def koreanRuns (text : String) : List (Nat × String) :=
  koreanRunsGo 0 none text.data

/-- `TranslationQAValidator.check_language_mixing`. -/
def checkLanguageMixing (v : Validator) (text : String) : List QAIssue :=
  if v.sourceLang ≠ "korean" then []
  else
    (koreanRuns text).map (fun pr =>
      let (position, koreanText) := pr
      let start := position - 30
      let stop := min text.data.length (position + koreanText.data.length + 30)
      let context := (pySlice text.data start stop).asString
      if KOREAN_ONOMATOPOEIA.contains koreanText then
        { type := "language_mixing", severity := "warning", text := koreanText,
          position := some position, context := some context,
          message := "의성어/의태어 유지됨 (스타일 선택): \"" ++ koreanText ++ "\"" }
      else
        { type := "language_mixing", severity := "error", text := koreanText,
          position := some position, context := some context,
          message := "소스 언어(한국어) 발견: \"" ++ koreanText ++ "\"" })

/-- The `while True` / `text.find(wrong_variant, pos)` loop of
`check_glossary_consistency`: all occurrence offsets, stepping by the
needle's length.  Fuelled recursion; the needle is nonempty for every
entry of `known_variants` (enforced in `_build_lookup_tables`). -/
def findOccurrences (t needle : Str) : List Nat :=
  let rec go : Nat → Nat → List Nat
    | _, 0 => []
    | pos, fuel + 1 =>
      match pyFindFrom t needle pos with
      | none => []
      | some p => p :: go (p + needle.length) fuel
  go 0 (t.length + 1)

/-- First-occurrence deduplication; Python collects the variants in a `set`,
whose iteration order is unspecified — no claim depends on the order. -/
def dedupFirst : List String → List String
  | [] => []
  | s :: ss => s :: (dedupFirst (ss.filter (· ≠ s)))
  termination_by l => l.length
  decreasing_by
    have := List.length_filter_le (fun x => decide (x ≠ s)) ss
    simp only [List.length_cons]
    omega

/-- `TranslationQAValidator._get_similar_alternatives`. -/
def getSimilarAlternatives (text : String) : List String :=
  let cs := text.data
  let cands := (List.range cs.length).flatMap (fun i =>
    match cs.get? i with
    | some ch =>
      match (SIMILAR_CHARACTERS.lookup ch) with
      | some alts =>
        (alts.filter (· ≠ ch)).map (fun a => (cs.take i ++ a :: cs.drop (i + 1)).asString)
      | none => []
    | none => [])
  dedupFirst cands

/-- `TranslationQAValidator.check_glossary_consistency`. -/
def checkGlossaryConsistency (v : Validator) (text : String) : List QAIssue :=
  let t := text.data
  let untranslated := v.termMap.filterMap (fun p =>
    let (original, expected) := p
    if pyContains t original.data then
      some { type := "untranslated_term", severity := "error", text := original,
             expected := some expected,
             message := "번역되지 않은 용어: \"" ++ original ++ "\" → \"" ++ expected ++ "\"" }
    else none)
  let variantIssues := v.knownVariants.flatMap (fun p =>
    let (wrong, correct) := p
    if pyContains t wrong.data then
      (findOccurrences t wrong.data).map (fun pos =>
        let stop := min t.length (pos + wrong.data.length + 20)
        let context := (pySlice t (pos - 20) stop).asString
        { type := "glossary_mismatch", severity := "error", text := wrong,
          expected := some correct, position := some pos, context := some context,
          message := "잘못된 번역 변형: \"" ++ wrong ++ "\" → \"" ++ correct ++ "\" 사용 필요" })
    else [])
  let charIssues := v.charTerms.flatMap (fun ct =>
    (getSimilarAlternatives ct.translation).filterMap (fun alt =>
      if pyContains t alt.data && alt ≠ ct.translation then
        let pos := (pyFind t alt.data).getD 0
        let stop := min t.length (pos + alt.data.length + 20)
        let context := (pySlice t (pos - 20) stop).asString
        some { type := "glossary_mismatch", severity := "error", text := alt,
               expected := some ct.translation, context := some context,
               message := "용어 불일치: \"" ++ alt ++ "\" → \"" ++ ct.translation ++ "\" 사용 필요" }
      else none))
  untranslated ++ variantIssues ++ charIssues

/-- `TranslationQAValidator.validate`. -/
def validateText (v : Validator) (text : String) (episodeNumber : Option Nat) : QAResult :=
  if v.skipLanguageMixing then
    { passed := true, issues := [], episodeNumber := episodeNumber }
  else
    let issues := checkLanguageMixing v text ++ checkGlossaryConsistency v text
    { passed := (issues.filter (fun i => i.severity = "error")).length = 0,
      issues := issues, episodeNumber := episodeNumber }

/-- Does a string still contain Korean syllables
(`korean_pattern.search(translated)`)? -/
def anyKorean (s : Str) : Bool := s.any koreanSyllable

/-- Running state of the first loop of `TranslationQAValidator.auto_fix`. -/
structure AutoFixState where
  ft : Str
  fc : Nat
  unfixed : List QAIssue
  langMix : List QAIssue

/-- One iteration of the `for issue in issues` loop of `auto_fix`.  Note the
two replacement branches: when `issue.text` is *not* in the running text the
issue is neither fixed nor recorded (the Python code falls through the inner
`if` with no `else`). -/
def autoFixStep (st : AutoFixState) (issue : QAIssue) : AutoFixState :=
  if issue.type = "glossary_mismatch" && truthyOpt issue.expected then
    if pyContains st.ft issue.text.data then
      { st with ft := pyReplace st.ft issue.text.data ((issue.expected.getD "").data),
                fc := st.fc + 1 }
    else st
  else if issue.type = "language_mixing" && issue.severity = "error" then
    { st with langMix := st.langMix ++ [issue] }
  else if issue.type = "untranslated_term" && truthyOpt issue.expected then
    if pyContains st.ft issue.text.data then
      { st with ft := pyReplace st.ft issue.text.data ((issue.expected.getD "").data),
                fc := st.fc + 1 }
    else st
  else
    { st with unfixed := st.unfixed ++ [issue] }

/-- The LLM re-translation oracle for `_fix_language_mixing`: given the Korean
segment, the value of `result['output']` (`none` models a failed call or a
raised exception). -/
abbrev SegmentOracle := String → Option String

/-- One iteration of the `for issue in issues` loop of
`TranslationQAValidator._fix_language_mixing`.  State: running text,
fixed count, unfixed issues. -/
def fixLanguageMixingStep (oracle : SegmentOracle)
    (st : Str × Nat × List QAIssue) (issue : QAIssue) : Str × Nat × List QAIssue :=
  let (ft, fc, unfixed) := st
  if ¬ pyContains ft issue.text.data then
    (ft, fc, unfixed)
  else
    match oracle issue.text with
    | some output =>
      if output ≠ "" then
        let translated := pyStrip output.data
        if anyKorean translated then
          (ft, fc, unfixed ++ [issue])
        else
          (pyReplace1 ft issue.text.data translated, fc + 1, unfixed)
      else (ft, fc, unfixed ++ [issue])
    | none => (ft, fc, unfixed ++ [issue])

/-- `TranslationQAValidator._fix_language_mixing` (the target-language mapping
and prompt construction only shape the oracle's input and are elided). -/
def fixLanguageMixing (ft : Str) (issues : List QAIssue) (oracle : SegmentOracle) :
    Str × Nat × List QAIssue :=
  issues.foldl (fixLanguageMixingStep oracle) (ft, 0, [])

/-- `TranslationQAValidator.auto_fix`.  `llm = none` models
`llm_processor=None`; `llm = some oracle` models a live processor whose
per-segment translations are given by `oracle`. -/
def autoFix (text : String) (issues : List QAIssue) (llm : Option SegmentOracle) :
    String × Nat × List QAIssue :=
  let st := issues.foldl autoFixStep ⟨text.data, 0, [], []⟩
  match llm with
  | some oracle =>
    if st.langMix ≠ [] then
      let (ft, mfc, munfixed) := fixLanguageMixing st.ft st.langMix oracle
      (ft.asString, st.fc + mfc, st.unfixed ++ munfixed)
    else (st.ft.asString, st.fc, st.unfixed)
  | none =>
    if st.langMix ≠ [] then (st.ft.asString, st.fc, st.unfixed ++ st.langMix)
    else (st.ft.asString, st.fc, st.unfixed)

end TranslationQA

/-! ## `src/stage_02_translate.py` — `enforce_name_consistency` -/

namespace Stage02

/-- A glossary term as handled by `enforce_name_consistency` (the debug
bookkeeping keys `_corrected_from` / `_matched_first_name` /
`_matched_foreign_name` / `_name_replaced` that the function also writes do
not influence any behaviour and are elided). -/
structure Term2 where
  original : String
  translation : String
  category : String
  deriving DecidableEq, Repr

/-- `korean_surnames` (each a one-character string in the source). -/
def koreanSurnames : List Char :=
  ['김', '이', '박', '최', '정', '강', '조', '윤', '장', '임',
   '한', '오', '서', '신', '권', '황', '안', '송', '류', '전',
   '홍', '고', '문', '양', '손', '배', '백', '허', '유', '남',
   '심', '노', '하', '곽', '성', '차', '주', '우', '구', '민',
   '진', '나', '지', '엄', '변', '채', '원', '천', '방', '공']

/-- `full_name_map` (original full name → (given name, given-name
translation)) and `first_name_map` (given name → correct translation). -/
structure NameMaps where
  fullNameMap : List (String × (String × String))
  firstNameMap : List (String × String)

/-- One `for term in terms` iteration of the first pass (full-name
identification). -/
def firstPassStep (targetLang : String) (maps : NameMaps) (term : Term2) : NameMaps :=
  if term.category ≠ "character" then maps
  else
    let o := term.original.data
    let t := term.translation.data
    if 3 ≤ o.length then
      match o with
      | [] => maps
      | potentialSurname :: rest =>
        if koreanSurnames.contains potentialSurname then
          let firstName := rest
          if 2 ≤ firstName.length then
            if targetLang = "japanese" then
              match splitOnce t '・' with
              | some (_, afterSep) =>
                let fnT := afterSep.asString
                { fullNameMap :=
                    dictInsert maps.fullNameMap term.original (firstName.asString, fnT),
                  firstNameMap := dictInsert maps.firstNameMap firstName.asString fnT }
              | none => maps
            else if targetLang = "taiwanese" then
              if 3 ≤ t.length then
                let fnT := (t.drop 1).asString
                if fnT ≠ "" then
                  { fullNameMap :=
                      dictInsert maps.fullNameMap term.original (firstName.asString, fnT),
                    firstNameMap := dictInsert maps.firstNameMap firstName.asString fnT }
                else maps
              else maps
            else maps
          else maps
        else maps
    else maps

/-- One `for term in terms` iteration of the foreign-name pass
(`foreign_name_map` construction). -/
def foreignPassStep (targetLang : String) (m : List (String × String)) (term : Term2) :
    List (String × String) :=
  if term.category ≠ "character" then m
  else
    let o := term.original.data
    let t := term.translation.data
    if pyContains o [' '] && 2 ≤ (pySplitWS o).length then
      match pySplitWS o with
      | [] => m
      | shortName :: _ =>
        if targetLang = "japanese" then
          if pyContains t ['・'] then
            match splitChar '・' t with
            | [] => m
            | shortT :: _ => dictInsert m shortName.asString shortT.asString
          else m
        else if targetLang = "taiwanese" then
          if pyContains t ['·'] || pyContains t ['・'] then
            let sep := if pyContains t ['·'] then '·' else '・'
            match splitChar sep t with
            | [] => m
            | shortT :: _ => dictInsert m shortName.asString shortT.asString
          else if pyContains t [' '] then
            match pySplitWS t with
            | [] => m
            | shortT :: _ => dictInsert m shortName.asString shortT.asString
          else m
        else m
    else m

def isCJKUnified (c : Char) : Bool :=
  0x4E00 ≤ c.toNat && c.toNat ≤ 0x9FFF

/-- The body of the second pass for one term (correction of first names and
compound terms; `break`s in the Python loop become `find?`). -/
def secondPassTerm (targetLang : String) (foreignNameMap : List (String × String))
    (firstNameMap : List (String × String)) (originalTranslations : List (String × String))
    (fullNames : List String) (term : Term2) : Term2 :=
  let original := term.original
  let current := term.translation
  if fullNames.contains original then term
  else
    let foreignFix :=
      match dictGet foreignNameMap original with
      | some correct =>
        if current ≠ correct then some { term with translation := correct } else none
      | none => none
    match foreignFix with
    | some t' => t'
    | none =>
      match firstNameMap.find? (fun p => sContains original p.1) with
      | none => term
      | some (firstName, correct) =>
        if original = firstName then
          -- Case 1: the term is exactly the given name
          if current ≠ correct then { term with translation := correct } else term
        else
          -- Case 2: compound term containing the given name
          let wrong := (dictGet originalTranslations firstName).getD ""
          if wrong ≠ "" && wrong ≠ correct && sContains current wrong then
            let newT := sReplace current wrong correct
            if newT ≠ current then { term with translation := newT } else term
          else if targetLang = "taiwanese" && 2 ≤ correct.data.length then
            -- Positional search for a wrong name variant.  `expected_pos` is
            -- computed in Python as `int(name_pos / len(original) *
            -- len(current))` with float arithmetic; it is modelled here by the
            -- exact rational floor.
            match pyFind original.data firstName.data with
            | none => term
            | some namePos =>
              let expectedPos :=
                if 0 < original.data.length then
                  namePos * current.data.length / original.data.length
                else 0
              let searchStart := expectedPos - 2
              let searchEnd := min current.data.length (expectedPos + correct.data.length + 2)
              let searchRegion := pySlice current.data searchStart searchEnd
              match (List.range (searchRegion.length - 1)).find? (fun i =>
                  let potential := pySlice searchRegion i (i + correct.data.length)
                  potential.length = correct.data.length &&
                    potential.asString ≠ correct &&
                    potential.all isCJKUnified) with
              | none => term
              | some i =>
                let actualStart := searchStart + i
                let newT := (current.data.take actualStart ++ correct.data ++
                  current.data.drop (actualStart + correct.data.length)).asString
                if newT ≠ current then { term with translation := newT } else term
          else term

/-- `enforce_name_consistency(terms, target_lang)`. -/
def enforceNameConsistency (terms : List Term2) (targetLang : String) : List Term2 :=
  let maps := terms.foldl (firstPassStep targetLang) ⟨[], []⟩
  let foreignNameMap := terms.foldl (foreignPassStep targetLang) []
  let originalTranslations := terms.foldl
    (fun m term =>
      if term.category = "character" then dictInsert m term.original term.translation
      else m) []
  let fullNames := (maps.fullNameMap.map Prod.fst) ++
    (terms.filterMap (fun term =>
      if pyContains term.original.data [' '] && 2 ≤ (pySplitWS term.original.data).length then
        some term.original
      else none))
  terms.map (secondPassTerm targetLang foreignNameMap maps.firstNameMap
    originalTranslations fullNames)

end Stage02

/-! ## `src/processors/glossary_manager.py` -/

namespace GlossaryMgr

/-- A stored glossary term (`term_entry` of `GlossaryManager.add_term`). -/
structure Term where
  original : String
  translation : String
  category : String
  firstAppearance : String := ""
  context : String := ""
  deriving DecidableEq, Repr

/-- The manager's mutable state relevant to term storage:
`self.glossary_data['terms']` (the file-metadata fields `series_name`,
dates, … do not influence term handling). -/
abbrev GlossaryState := List Term

/-- `GlossaryManager.find_term`. -/
def findTerm (st : GlossaryState) (original : String) : Option Term :=
  st.find? (fun term => term.original = original)

/-- `GlossaryManager.add_term`: a no-op (with a logged warning) when the
original is already present, an append otherwise. -/
def addTerm (st : GlossaryState) (original translation category
    firstAppearance context : String) : GlossaryState :=
  match findTerm st original with
  | some _ => st
  | none =>
    st ++ [{ original := original, translation := translation, category := category,
             firstAppearance := firstAppearance, context := context }]

/-- `GlossaryManager.create`: replaces the term list with the given initial
terms (`terms or []`). -/
def create (terms : List Term) : GlossaryState := terms

/-- A `create`/`add_term` call. -/
inductive GlossOp where
  | create (terms : List Term)
  | addTerm (original translation category firstAppearance context : String)
  deriving Repr

/-- Effect of one call on the manager state. -/
def applyOp (st : GlossaryState) : GlossOp → GlossaryState
  | .create terms => create terms
  | .addTerm o t c fa ctx => addTerm st o t c fa ctx

/-- A sequence of calls, starting from the `__init__` state (empty term
list). -/
def runOps (ops : List GlossOp) : GlossaryState :=
  ops.foldl applyOp []

/-- The side condition of the amended uniqueness claim: a `create` call may
only seed terms whose originals are pairwise distinct. -/
def opSeedsDistinct : GlossOp → Prop
  | .create terms => (terms.map Term.original).Nodup
  | .addTerm _ _ _ _ _ => True

instance : DecidablePred opSeedsDistinct := by
  intro op
  cases op with
  | create terms => exact inferInstanceAs (Decidable ((terms.map Term.original).Nodup))
  | addTerm o t c fa ctx => exact inferInstanceAs (Decidable True)

end GlossaryMgr

/-! ## `src/stage_02a_translation_qa.py` — auto-fix retry loop -/

namespace Stage02a

/-- Observable outcome of one retry iteration for one language: the number of
error-severity issues found (`lang_errors`) and the number of fixes applied
(`lang_fixed`).  The iteration body (validating every episode file and
rewriting fixed ones) is abstracted into a function from the iteration number
to this outcome. -/
structure IterOutcome where
  errors : Nat
  fixed : Nat

/-- The `while retry_count < max_retries` loop of `run_stage_2a`
(lines 158–253), returning the final `retry_count`.  `iter k` is the outcome
of the iteration that runs with `retry_count = k`.  The fuel argument is
initialised to `maxRetries`; since `retry_count` increases by one per
iteration this reproduces the Python loop exactly. -/
def qaRetryLoopAux (autoFixFlag : Bool) (maxRetries : Nat) (iter : Nat → IterOutcome) :
    Nat → Nat → Nat
  | 0, retryCount => retryCount
  | fuel + 1, retryCount =>
    if retryCount < maxRetries then
      let rc := retryCount + 1
      let o := iter rc
      -- `if lang_passed: break`
      if o.errors = 0 then rc
      -- `elif not auto_fix: break`
      else if ¬ autoFixFlag then rc
      -- `elif lang_fixed == 0 and lang_errors > 0: break`
      else if o.fixed = 0 && 0 < o.errors then rc
      -- `elif retry_count < max_retries: continue` (the loop condition)
      else qaRetryLoopAux autoFixFlag maxRetries iter fuel rc
    else retryCount

/-- Number of retry iterations the auto-fix loop performs. -/
def qaRetryLoop (autoFixFlag : Bool) (maxRetries : Nat) (iter : Nat → IterOutcome) : Nat :=
  qaRetryLoopAux autoFixFlag maxRetries iter maxRetries 0

end Stage02a

/-! ## `src/processors/llm_episode_splitter.py` -/

namespace Splitter

/-- Result of `compiled.match(line)`: value of capture group 1 (`none` when
the pattern has no capture group — the `IndexError` fallback path) and
`match.end()`. -/
abbrev LineMatch := Option Nat × Nat

/-- A compiled line-anchored regex, as its matching function. -/
abbrev LineMatcherFn := Str → Option LineMatch

/-- `^#(\d+)화\s*$`-shaped patterns: a head character, digits, a marker
character, optional trailing whitespace.  Covers `#N화`, `$N화`, `第N話` and
`제N화`. -/
def matchMarkerHwa (head marker : Char) : LineMatcherFn := fun cs =>
  match cs with
  | [] => none
  | c :: rest =>
    if c = head then
      let ds := rest.takeWhile isDigit
      if ds ≠ [] then
        match rest.drop ds.length with
        | m :: tail =>
          if m = marker && tail.all pyIsSpace then
            some (some (digitsToNat ds), cs.length)
          else none
        | [] => none
      else none
    else none

/-- `^//(\d+)\s*$`. -/
def matchSlashN : LineMatcherFn := fun cs =>
  match cs with
  | '/' :: '/' :: rest =>
    let ds := rest.takeWhile isDigit
    if ds ≠ [] && (rest.drop ds.length).all pyIsSpace then
      some (some (digitsToNat ds), cs.length)
    else none
  | _ => none

/-- `^\$(\d{3})` (text may follow; `match.end()` is 4). -/
def matchDollarNNN : LineMatcherFn := fun cs =>
  match cs with
  | '$' :: rest =>
    let ds := rest.take 3
    if ds.length = 3 && ds.all isDigit then some (some (digitsToNat ds), 4) else none
  | _ => none

/-- `^\* \* \*\$(\d{3})`. -/
def matchStarsDollarNNN : LineMatcherFn := fun cs =>
  if strStartsWith cs ("* * *$".data) then
    let ds := (cs.drop 6).take 3
    if ds.length = 3 && ds.all isDigit then some (some (digitsToNat ds), 9) else none
  else none

/-- `^(?:\* \* \*)?\$(\d{3})` (the combined pattern; the greedy optional
group tries the `* * *` prefix first). -/
def matchCombined : LineMatcherFn := fun cs =>
  match matchStarsDollarNNN cs with
  | some r => some r
  | none => matchDollarNNN cs

/-- The ` \(\d+\)` suffix of `N. Title (N)` matched at offset `p` of the
after-`N. ` remainder; returns the consumed length. -/
def parenAt (r : Str) (p : Nat) : Option Nat :=
  match r.drop p with
  | ' ' :: '(' :: rest =>
    let ds := rest.takeWhile isDigit
    if ds ≠ [] then
      match rest.drop ds.length with
      | ')' :: _ => some (2 + ds.length + 1)
      | _ => none
    else none
  | _ => none

/-- `^(\d+)\. .+ \(\d+\)`.  The greedy `.+` makes `match.end()` correspond to
the rightmost ` (N)` completion, with at least one character before it. -/
def matchNTitleParen : LineMatcherFn := fun cs =>
  let ds := cs.takeWhile isDigit
  if ds = [] then none
  else
    match cs.drop ds.length with
    | '.' :: ' ' :: r =>
      match ((List.range r.length).reverse).find? (fun p => 0 < p && (parenAt r p).isSome) with
      | some p => (parenAt r p).map (fun consumed => (some (digitsToNat ds), ds.length + 2 + p + consumed))
      | none => none
    | _ => none

/-- `^(\d+)\. .+` (greedy: the match extends to the end of the line). -/
def matchNTitle : LineMatcherFn := fun cs =>
  let ds := cs.takeWhile isDigit
  if ds = [] then none
  else
    match cs.drop ds.length with
    | '.' :: ' ' :: r => if r ≠ [] then some (some (digitsToNat ds), cs.length) else none
    | _ => none

/-- The keys of `KNOWN_PATTERNS`, in source (dict-insertion) order. -/
def KNOWN_PATTERN_NAMES : List String :=
  ["#N화", "$N화", "$NNN", "* * *$NNN", "$NNN+* * *$NNN",
   "第N話", "제N화", "N. Title (N)", "NN. Title", "//N"]

/-- The compiled regex of each `KNOWN_PATTERNS` entry. -/
def knownPatternMatcher (name : String) : LineMatcherFn :=
  if name = "#N화" then matchMarkerHwa '#' '화'
  else if name = "$N화" then matchMarkerHwa '$' '화'
  else if name = "$NNN" then matchDollarNNN
  else if name = "* * *$NNN" then matchStarsDollarNNN
  else if name = "$NNN+* * *$NNN" then matchCombined
  else if name = "第N話" then matchMarkerHwa '第' '話'
  else if name = "제N화" then matchMarkerHwa '제' '화'
  else if name = "N. Title (N)" then matchNTitleParen
  else if name = "NN. Title" then matchNTitle
  else if name = "//N" then matchSlashN
  else fun _ => none

/-- The regex source string of each `KNOWN_PATTERNS` entry (used where the
code compares pattern strings). -/
def knownPatternRegexStr (name : String) : String :=
  if name = "#N화" then "^#(\\d+)화\\s*$"
  else if name = "$N화" then "^\\$(\\d+)화\\s*$"
  else if name = "$NNN" then "^\\$(\\d{3})"
  else if name = "* * *$NNN" then "^\\* \\* \\*\\$(\\d{3})"
  else if name = "$NNN+* * *$NNN" then "^(?:\\* \\* \\*)?\\$(\\d{3})"
  else if name = "第N話" then "^第(\\d+)話\\s*$"
  else if name = "제N화" then "^제(\\d+)화\\s*$"
  else if name = "N. Title (N)" then "^(\\d+)\\. .+ \\(\\d+\\)"
  else if name = "NN. Title" then "^(\\d+)\\. .+"
  else if name = "//N" then "^//(\\d+)\\s*$"
  else ""

/-- `line.strip().lstrip('﻿')` as applied to every line before pattern
matching. -/
def processLine (l : Str) : Str := pyLstripBOM (pyStrip l)

/-- Number of lines of `text` matched by a known pattern
(`_detect_known_pattern_directly`'s per-pattern match count). -/
def countLineMatches (name : String) (text : Str) : Nat :=
  ((splitLines text).map processLine).countP (fun l => ((knownPatternMatcher name) l).isSome)

/-- `pattern_counts`: the non-zero match counts, in `KNOWN_PATTERNS` order. -/
def patternCounts (text : Str) : List (String × Nat) :=
  (KNOWN_PATTERN_NAMES.map (fun n => (n, countLineMatches n text))).filter
    (fun p => p.2 ≠ 0)

/-- `re.findall(INLINE_EPISODE_PATTERN, text)`: the episode numbers of the
non-overlapping `$NNN` matches anywhere in the text.  Structural recursion on
a fuel initialised to the text length (each step consumes at least one
character, so the fuel never runs out). -/
def inlineScanGo : Nat → Str → List Nat
  | 0, _ => []
  | _, [] => []
  | fuel + 1, c :: rest =>
    if c = '$' && ((rest.take 3).length = 3 && (rest.take 3).all isDigit) then
      digitsToNat (rest.take 3) :: inlineScanGo fuel (rest.drop 3)
    else inlineScanGo fuel rest

def inlineScan (cs : Str) : List Nat := inlineScanGo cs.length cs

/-- One entry of a `patterns` list (`separator_pattern`, `pattern_regex`; the
`pattern_examples` lists feed only log output and LLM prompts and are
elided).  A compiled regex is represented by its matching function. -/
structure PatternEntry where
  separatorPattern : String
  patternRegexStr : String
  matcher : LineMatcherFn

/-- The pattern-information dict flowing out of `_detect_pattern`.
Missing keys are `none` / `[]` / `false`; oracle-provided dicts are taken in
the already-normalised multi-pattern format (the old single-pattern format is
converted to it verbatim by `_detect_pattern`). -/
structure PatternInfo where
  isMultiEpisode : Bool
  patterns : List PatternEntry := []
  primaryPattern : Option String := none
  separatorPattern : Option String := none
  patternRegexStr : Option String := none
  patternRegex : Option LineMatcherFn := none
  estimatedEpisodes : Option Int := none
  confidence : Int
  epilogue : Option String := none
  useInlineSplit : Bool := false

/-- `LLMEpisodeSplitter._detect_known_pattern_directly`. -/
def detectKnownPatternDirectly (text : Str) : Option PatternInfo :=
  let counts := patternCounts text
  let inlineNums := inlineScan text
  let maxLineStartCount := counts.foldl (fun m p => max m p.2) 0
  -- inline check: `inline_count > max_line_start_count * 1.5`
  -- (`x > y * 1.5` is exact for these integer ranges: `2x > 3y`)
  let inlineInfo : Option PatternInfo :=
    if inlineNums ≠ [] then
      let inlineCount := inlineNums.dedup.length
      if 2 * inlineCount > 3 * maxLineStartCount then
        some { isMultiEpisode := true,
               patterns := [⟨"$NNN (inline)", "\\$(\\d{3})", matchDollarNNN⟩],
               primaryPattern := some "$NNN (inline)",
               patternRegexStr := some "\\$(\\d{3})",
               patternRegex := some matchDollarNNN,
               estimatedEpisodes := some (inlineCount : Int),
               confidence := 95,
               useInlineSplit := true }
      else none
    else none
  match inlineInfo with
  | some r => some r
  | none =>
    match counts with
    | [] => none
    | _ :: _ =>
      if (dictGet counts "$NNN").isSome && (dictGet counts "* * *$NNN").isSome then
        -- combined-pattern branch
        let totalCount := ((dictGet counts "$NNN").getD 0) + ((dictGet counts "* * *$NNN").getD 0)
        some { isMultiEpisode := true,
               patterns := [⟨"$NNN+* * *$NNN", knownPatternRegexStr "$NNN+* * *$NNN", matchCombined⟩],
               primaryPattern := some "$NNN+* * *$NNN",
               patternRegexStr := some (knownPatternRegexStr "$NNN+* * *$NNN"),
               patternRegex := some matchCombined,
               estimatedEpisodes := some (totalCount : Int),
               confidence := 95 }
      else
        -- `best_pattern = max(pattern_counts, key=pattern_counts.get)`
        -- (Python `max` keeps the first maximal key)
        match counts with
        | [] => none
        | p :: ps =>
          let best := ps.foldl (fun b q => if q.2 > b.2 then q else b) p
          if best.2 < 3 then none
          else
            some { isMultiEpisode := true,
                   patterns := [⟨best.1, knownPatternRegexStr best.1, knownPatternMatcher best.1⟩],
                   primaryPattern := some best.1,
                   patternRegexStr := some (knownPatternRegexStr best.1),
                   patternRegex := some (knownPatternMatcher best.1),
                   estimatedEpisodes := some (best.2 : Int),
                   confidence := 95 }

/-- The fallback dict `_detect_pattern` returns when the LLM call raises. -/
def fallbackPatternInfo : PatternInfo :=
  { isMultiEpisode := false,
    separatorPattern := none,
    patternRegexStr := none,
    patternRegex := none,
    estimatedEpisodes := some 1,
    confidence := 50 }

/-- `LLMEpisodeSplitter._detect_pattern`: direct detection first; otherwise
the LLM's answer (`detectOracle = some info`, already in the normalised
multi-pattern format) or, when the call/parse raises, the single-episode
fallback (`detectOracle = none`). -/
def detectPattern (text : Str) (detectOracle : Option PatternInfo) : PatternInfo :=
  match detectKnownPatternDirectly text with
  | some direct => direct
  | none =>
    match detectOracle with
    | some info => info
    | none => fallbackPatternInfo

/-- Least offset whose suffix satisfies `p` (`re.search` start position for a
pattern whose matches are characterised by a suffix test). -/
def searchFirst (p : Str → Bool) (cs : Str) : Option Nat :=
  let rec go (i : Nat) : Str → Option Nat
    | [] => none
    | c :: rest => if p (c :: rest) then some i else go (i + 1) rest
  go 0 cs

/-- `\s*` followed by a head satisfying `k`: since no continuation below
starts with a whitespace character, the greedy skip is exact. -/
def afterWS (k : Str → Bool) (cs : Str) : Bool := k (cs.dropWhile pyIsSpace)

/-- `\d+` followed by a continuation. -/
def afterDigits (k : Str → Bool) (cs : Str) : Bool :=
  let ds := cs.takeWhile isDigit
  ds ≠ [] && k (cs.drop ds.length)

/-- `\s*$` (the searched string is `rstrip`ped, so `$` is end-of-string). -/
def wsEnd (cs : Str) : Bool := cs.all pyIsSpace

/-- `\s*[^\n]+$`: some whitespace, then at least one character, none of the
rest a newline. -/
def wsStarNonNlPlusEnd : Str → Bool
  | [] => false
  | c :: cs =>
    (c ≠ '\n' && (c :: cs).all (· ≠ '\n')) || (pyIsSpace c && wsStarNonNlPlusEnd cs)

/-- The nine `TRAILING_EPISODE_PATTERNS`, each as the suffix test of a match
starting at the tested offset (every pattern starts with `\n`). -/
def trailingCheckers : List (Str → Bool) :=
  [ -- `\n\s*#\d+화\s*$`
    fun cs => match cs with
      | '\n' :: r => afterWS (fun s => match s with
          | '#' :: t => afterDigits (fun u => match u with
              | '화' :: v => wsEnd v
              | _ => false) t
          | _ => false) r
      | _ => false,
    -- `\n\s*\$\d{3}\s*$`
    fun cs => match cs with
      | '\n' :: r => afterWS (fun s => match s with
          | '$' :: t =>
            let ds := t.take 3
            ds.length = 3 && ds.all isDigit && wsEnd (t.drop 3)
          | _ => false) r
      | _ => false,
    -- `\n\s*\* \* \*\$\d{3}` (text may follow)
    fun cs => match cs with
      | '\n' :: r => afterWS (fun s =>
          strStartsWith s ("* * *$".data) &&
            (let ds := (s.drop 6).take 3
             ds.length = 3 && ds.all isDigit)) r
      | _ => false,
    -- `\n\s*\* \* \*\s*$`
    fun cs => match cs with
      | '\n' :: r => afterWS (fun s =>
          strStartsWith s ("* * *".data) && wsEnd (s.drop 5)) r
      | _ => false,
    -- `\n\s*第\d+話\s*$`
    fun cs => match cs with
      | '\n' :: r => afterWS (fun s => match s with
          | '第' :: t => afterDigits (fun u => match u with
              | '話' :: v => wsEnd v
              | _ => false) t
          | _ => false) r
      | _ => false,
    -- `\n\s*제\d+화\s*$`
    fun cs => match cs with
      | '\n' :: r => afterWS (fun s => match s with
          | '제' :: t => afterDigits (fun u => match u with
              | '화' :: v => wsEnd v
              | _ => false) t
          | _ => false) r
      | _ => false,
    -- `\n\s*\d+화\s*$`
    fun cs => match cs with
      | '\n' :: r => afterWS (afterDigits (fun u => match u with
          | '화' :: v => wsEnd v
          | _ => false)) r
      | _ => false,
    -- `\n\s*//\d+\s*$`
    fun cs => match cs with
      | '\n' :: r => afterWS (fun s => match s with
          | '/' :: '/' :: t => afterDigits wsEnd t
          | _ => false) r
      | _ => false,
    -- `\n\s*\d+\.\s*[^\n]+$`
    fun cs => match cs with
      | '\n' :: r => afterWS (afterDigits (fun u => match u with
          | '.' :: v => wsStarNonNlPlusEnd v
          | _ => false)) r
      | _ => false ]

/-- `clean_trailing_episode_marker`: `rstrip`, then cut at the first match of
the first trailing pattern that has one, then `rstrip` again. -/
def cleanTrailingEpisodeMarker (content : Str) : Str :=
  let cleaned := pyRstrip content
  let rec tryPatterns : List (Str → Bool) → Str
    | [] => cleaned
    | p :: ps =>
      match searchFirst p cleaned with
      | some i => pyRstrip (cleaned.take i)
      | none => tryPatterns ps
  tryPatterns trailingCheckers

/-- An episode dict (`{'number': ..., 'title': ..., 'content': ...}`). -/
structure Episode where
  number : Nat
  title : Option String := none
  content : String
  deriving DecidableEq, Repr

/-- State of the line loops of `_regex_split` / `_multi_pattern_regex_split`. -/
structure SplitState where
  episodes : List Episode
  currentEpisode : Option Nat
  currentContent : List Str

/-- Saving an episode: `'\n'.join(current_content).strip()` followed by
`clean_trailing_episode_marker`. -/
def mkSaved (n : Nat) (currentContent : List Str) : Episode :=
  { number := n, title := none,
    content := (cleanTrailingEpisodeMarker (pyStrip (joinLines currentContent))).asString }

/-- `int(match.group(1))` with the `IndexError` fallback that extracts the
first digit run of `match.group(0)`. -/
def extractEpisodeNumber (g1 : Option Nat) (group0 : Str) : Option Nat :=
  match g1 with
  | some n => some n
  | none => firstDigitRun group0

/-- One line of the single-pattern loop of `_regex_split`.  When the line
matches, the previous episode is saved *before* number extraction; a failed
extraction `continue`s with episode and content unchanged. -/
def regexSplitLine (matcher : LineMatcherFn) (st : SplitState) (line : Str) : SplitState :=
  let ls := processLine line
  match matcher ls with
  | some (g1, endPos) =>
    let saved :=
      match st.currentEpisode with
      | some n => st.episodes ++ [mkSaved n st.currentContent]
      | none => st.episodes
    match extractEpisodeNumber g1 (ls.take endPos) with
    | some n =>
      let rem := pyStrip (ls.drop endPos)
      { episodes := saved, currentEpisode := some n,
        currentContent := if rem ≠ [] then [rem] else [] }
    | none => { st with episodes := saved }
  | none =>
    match st.currentEpisode with
    | some _ => { st with currentContent := st.currentContent ++ [line] }
    | none => st

/-- The single-pattern loop of `_regex_split`, including the final save
(which, unlike the loop-internal one, requires nonempty content). -/
def regexSplitCore (matcher : LineMatcherFn) (text : Str) : List Episode :=
  let st := (splitLines text).foldl (regexSplitLine matcher) ⟨[], none, []⟩
  match st.currentEpisode with
  | some n =>
    if st.currentContent ≠ [] then st.episodes ++ [mkSaved n st.currentContent]
    else st.episodes
  | none => st.episodes

/-- `special_episodes` epilogue handling (`_handle_special_episodes`; the
prologue branch is commented out in the source). -/
def handleSpecialEpisodes (episodes : List Episode) (pi : PatternInfo) : List Episode :=
  match pi.epilogue with
  | some epi =>
    if episodes ≠ [] && epi ≠ "" then
      match episodes.getLast? with
      | some last =>
        if pyContains ((last.content.data.take 100).map Char.toLower) (epi.data.map Char.toLower) then
          episodes.dropLast ++ [{ last with title := some epi }]
        else episodes
      | none => episodes
    else episodes
  | none => episodes

/-- One entry of the title-extraction LLM response
(`{"idx": ..., "title": ..., "title_line_idx": ...}`). -/
structure TitleItem where
  idx : Option Nat := none
  title : Option String := none
  titleLineIdx : Option Nat := none

/-- Blank the `tli`-th nonempty line (`lines[i] = ''` + `break`). -/
def blankTitleLine (lines : List Str) (tli : Nat) : List Str :=
  let rec go (cnt : Nat) : List Str → List Str
    | [] => []
    | l :: ls =>
      if pyStrip l ≠ [] then
        if cnt = tli then [] :: ls
        else l :: go (cnt + 1) ls
      else l :: go cnt ls
  go 0 lines

/-- Apply one title-extraction result; `none` models the `IndexError` raised
by `episodes[idx]` for an out-of-range index (it aborts the whole loop but
keeps the mutations already made). -/
def applyTitleItem (episodes : List Episode) (item : TitleItem) : Option (List Episode) :=
  match item.idx, item.title, item.titleLineIdx with
  | some idx, some title, some tli =>
    if title ≠ "" then
      match episodes.get? idx with
      | none => none
      | some ep =>
        let lines := blankTitleLine (splitLines ep.content.data) tli
        let lines := lines.dropWhile (fun l => pyStrip l = [])
        some (episodes.set idx
          { ep with title := some title, content := (pyStrip (joinLines lines)).asString })
    else some episodes
  | _, _, _ => some episodes

def applyTitleItems (episodes : List Episode) : List TitleItem → List Episode
  | [] => episodes
  | item :: items =>
    match applyTitleItem episodes item with
    | some eps => applyTitleItems eps items
    | none => episodes

/-- Python truthiness of `ep.get('title')`. -/
def truthyTitle (ep : Episode) : Bool :=
  match ep.title with
  | some t => t ≠ ""
  | none => false

/-- `_extract_titles_from_episodes`.  `oracle = none` models a failed LLM
call or unparsable response (episodes returned unchanged); with no episode
needing a title the LLM is never consulted. -/
def extractTitles (episodes : List Episode) (oracle : Option (List TitleItem)) : List Episode :=
  let needing := episodes.filter (fun ep => ¬ truthyTitle ep && pyStrip ep.content.data ≠ [])
  if needing = [] then episodes
  else
    match oracle with
    | none => episodes
    | some items => applyTitleItems episodes items

/-- The inner `for pattern in compiled_patterns` loop of
`_multi_pattern_regex_split`: first matching pattern wins; the previous
episode is saved once per matching pattern attempted (a failed number
extraction sets `matched = False` and tries the next pattern without undoing
the save, exactly as the Python does). -/
def multiTryPatterns (ls : Str) (st : SplitState) :
    List LineMatcherFn → Bool × SplitState
  | [] => (false, st)
  | m :: ms =>
    match m ls with
    | none => multiTryPatterns ls st ms
    | some (g1, endPos) =>
      let saved :=
        match st.currentEpisode with
        | some n => st.episodes ++ [mkSaved n st.currentContent]
        | none => st.episodes
      let st := { st with episodes := saved }
      match extractEpisodeNumber g1 (ls.take endPos) with
      | some n =>
        let rem := pyStrip (ls.drop endPos)
        (true, { st with currentEpisode := some n,
                         currentContent := if rem ≠ [] then [rem] else [] })
      | none => multiTryPatterns ls st ms

def multiSplitLine (compiled : List LineMatcherFn) (st : SplitState) (line : Str) :
    SplitState :=
  let ls := processLine line
  let (matched, st) := multiTryPatterns ls st compiled
  if matched then st
  else
    match st.currentEpisode with
    | some _ => { st with currentContent := st.currentContent ++ [line] }
    | none => st

/-- `LLMEpisodeSplitter._multi_pattern_regex_split`.  `llmEpisodes` is the
externally-determined result of the `_llm_split` fallback. -/
def multiPatternRegexSplit (text : Str) (pi : PatternInfo) (llmEpisodes : List Episode)
    (titleOracle : Option (List TitleItem)) : List Episode :=
  match pi.patterns with
  | [] => llmEpisodes
  | _ :: _ =>
    let patternsList := pi.patterns
    let hasSpecific := patternsList.any (fun p =>
      strStartsWith p.separatorPattern.data ("$".data) ||
      strStartsWith p.separatorPattern.data ("#".data) ||
      strStartsWith p.separatorPattern.data ("//".data) ||
      sContains p.separatorPattern "화" || sContains p.separatorPattern "話" ||
      sContains p.separatorPattern "Chapter" || sContains p.separatorPattern "Episode")
    let patternsList :=
      if hasSpecific then
        let filtered := patternsList.filter (fun p =>
          p.patternRegexStr ≠ "^(\\d+)$" && p.separatorPattern ≠ "N")
        if ¬ filtered.isEmpty then filtered else patternsList
      else patternsList
    -- regex compilation cannot fail in the model (patterns carry their
    -- compiled matcher), so `compiled_patterns` is the whole list
    let compiled := patternsList.map (fun p => p.matcher)
    match compiled with
    | [] => llmEpisodes
    | _ :: _ =>
      let text := pyLstripBOM text
      let st := (splitLines text).foldl (multiSplitLine compiled) ⟨[], none, []⟩
      let episodes :=
        match st.currentEpisode with
        | some n => st.episodes ++ [mkSaved n st.currentContent]
        | none => st.episodes
      match episodes with
      | [] => [{ number := 1, content := text.asString }]
      | _ :: _ =>
        let episodes := episodes.filter (fun ep => pyStrip ep.content.data ≠ [])
        extractTitles (handleSpecialEpisodes episodes pi) titleOracle

/-- `LLMEpisodeSplitter._regex_split`. -/
def regexSplit (text : Str) (pi : PatternInfo) (llmEpisodes : List Episode)
    (titleOracle : Option (List TitleItem)) : List Episode :=
  if 1 < pi.patterns.length then multiPatternRegexSplit text pi llmEpisodes titleOracle
  else
    let patternStr :=
      match pi.patterns with
      | e :: _ => some e.patternRegexStr
      | [] => pi.patternRegexStr
    let matcher :=
      match pi.patterns with
      | e :: _ => some e.matcher
      | [] => pi.patternRegex
    if ¬ TranslationQA.truthyOpt patternStr then llmEpisodes
    else
      match matcher with
      | none => llmEpisodes
      | some m =>
        let text := pyLstripBOM text
        match regexSplitCore m text with
        | [] => [{ number := 1, content := text.asString }]
        | e :: es => extractTitles (handleSpecialEpisodes (e :: es) pi) titleOracle

/-- The combined split pattern `(?:\* \* \*)?\$(\d{3})` tried at one text
position: returns `(match length, episode number)`; the greedy optional
group tries the `* * *` prefix first. -/
def tryCombinedAt (cs : Str) : Option (Nat × Nat) :=
  if strStartsWith cs ("* * *$".data) then
    let ds := (cs.drop 6).take 3
    if ds.length = 3 && ds.all isDigit then some (9, digitsToNat ds) else none
  else
    match cs with
    | '$' :: rest =>
      let ds := rest.take 3
      if ds.length = 3 && ds.all isDigit then some (4, digitsToNat ds) else none
    | _ => none

/-- `re.finditer(split_pattern, text)` of `_inline_split`: non-overlapping
matches with `(start, end, episode number)`.  Structural recursion on a fuel
initialised to the text length (each step consumes at least one character). -/
def inlineFinditerGo : Nat → Nat → Str → List (Nat × Nat × Nat)
  | 0, _, _ => []
  | _, _, [] => []
  | fuel + 1, i, c :: rest =>
    match tryCombinedAt (c :: rest) with
    | some (len, num) =>
      (i, i + len, num) :: inlineFinditerGo fuel (i + len) ((c :: rest).drop len)
    | none => inlineFinditerGo fuel (i + 1) rest

def inlineFinditer (cs : Str) : List (Nat × Nat × Nat) := inlineFinditerGo cs.length 0 cs

/-- Python `text.rfind(needle, start, stop)`: the largest index of an
occurrence lying entirely within `[start, stop)`. -/
def pyRfindRange (hay needle : Str) (start stop : Nat) : Option Nat :=
  ((List.range (stop + 1)).filter (fun i =>
    start ≤ i && i + needle.length ≤ stop && strStartsWith (hay.drop i) needle)).getLast?

/-- `re.sub(r'\s*\* \* \*\s*$', '', content)`: cut at the leftmost position
where whitespace, `* * *`, and trailing whitespace reach the end. -/
def subTrailingStars (cs : Str) : Str :=
  match searchFirst (afterWS (fun u => strStartsWith u ("* * *".data) && wsEnd (u.drop 5))) cs with
  | some p => cs.take p
  | none => cs

/-- `LLMEpisodeSplitter._inline_split`. -/
def inlineSplit (text : Str) (pi : PatternInfo) (titleOracle : Option (List TitleItem)) :
    List Episode :=
  let text := pyLstripBOM text
  let found := inlineFinditer text
  match found with
  | [] => [{ number := 1, content := text.asString }]
  | _ :: _ =>
    let episodes := (List.range found.length).filterMap (fun i =>
      match found.get? i with
      | none => none
      | some (_, endPos, epNum) =>
        let contentStart := endPos
        let contentEnd :=
          match found.get? (i + 1) with
          | some (nextStart, _, _) =>
            let prefixCheck := pySlice text (nextStart - 10) nextStart
            if pyContains prefixCheck ("* * *".data) then
              match pyRfindRange text ("* * *".data) contentStart nextStart with
              | some p => p
              | none => nextStart
            else nextStart
          | none => text.length
        let content := pyStrip (pySlice text contentStart contentEnd)
        let content := cleanTrailingEpisodeMarker content
        let content := pyStrip (subTrailingStars content)
        some { number := epNum, content := content.asString })
    let episodes := episodes.filter (fun ep => pyStrip ep.content.data ≠ [])
    extractTitles (handleSpecialEpisodes episodes pi) titleOracle

/-- `_validate_split`'s result. -/
structure ValidationResult where
  confidence : Int
  warnings : List String

/-- `len(ep['content'].split())`. -/
def wordCount (s : String) : Nat := (pySplitWS s.data).length

/-- `LLMEpisodeSplitter._validate_split`.  The float comparisons
(`diff_pct > 20`, `preserved_pct < 80`, `> len(episodes) * 0.1`) are modelled
by their exact rational equivalents; interpolated numbers in warning strings
are elided. -/
def validateSplit (episodes : List Episode) (pi : PatternInfo) (originalText : Str) :
    ValidationResult :=
  let conf0 : Int := 100
  -- Check 1: episode count vs estimate
  let estimated : Int := pi.estimatedEpisodes.getD (episodes.length : Int)
  let actual : Int := (episodes.length : Int)
  let countMismatch := 0 < estimated && 5 * ((actual - estimated).natAbs : Int) > estimated
  let conf1 := if countMismatch then conf0 - 10 else conf0
  let w1 := if countMismatch then ["Episode count mismatch"] else []
  -- Check 2: sequential numbering
  let numbers := episodes.map (fun ep => (ep.number : Int))
  let gapCount := (numbers.zip numbers.tail).countP (fun p => p.2 - p.1 > 2)
  let conf2 := conf1 - 5 * gapCount
  let w2 := List.replicate gapCount "Large gap in numbering"
  -- Check 3: very short episodes
  let veryShort := episodes.countP (fun ep => wordCount ep.content < 20)
  let shortFlag := 10 * veryShort > episodes.length
  let conf3 := if shortFlag then conf2 - 5 else conf2
  let w3 := if shortFlag then ["episodes have very short content"] else []
  -- Check 4: content preservation
  let totalChars := (episodes.map (fun ep => ep.content.data.length)).sum
  let originalChars := originalText.length
  let lossFlag := decide (originalChars = 0) || decide (5 * totalChars < 4 * originalChars)
  let conf4 := if lossFlag then conf3 - 10 else conf3
  let w4 := if lossFlag then ["Content loss detected"] else []
  { confidence := max conf4 70, warnings := w1 ++ w2 ++ w3 ++ w4 }

/-- Is an optional pattern name a `KNOWN_PATTERNS` key
(`pattern_info.get(...) in KNOWN_PATTERNS`; `None in dict` is false)? -/
def knownName (o : Option String) : Bool :=
  match o with
  | some n => KNOWN_PATTERN_NAMES.contains n
  | none => false

/-- The `confidence` variable of `process` before validation: 100 for single
episodes, the detection confidence for inline/regex splits, and
`int(confidence * 0.9)` (modelled as the exact truncation of `c * 9 / 10`)
for the LLM split. -/
def pathConfidence (pi : PatternInfo) : Int :=
  if ¬ pi.isMultiEpisode then 100
  else if pi.useInlineSplit then pi.confidence
  else if knownName pi.primaryPattern || knownName pi.separatorPattern then pi.confidence
  else Int.tdiv (pi.confidence * 9) 10

/-- What `process` returns (the fields the claims are about: the episode
list, the method, and `metadata['confidence']`). -/
structure SplitResult where
  episodes : List Episode
  isMultiEpisode : Bool
  method : String
  totalEpisodes : Nat
  confidence : Int
  warnings : List String

/-- `LLMEpisodeSplitter.process` (for nonempty input text; empty input raises
`ValueError`).  `detectOracle` is the pattern-detection LLM's answer,
`llmEpisodes` the result of `_llm_split` (both external), `titleOracle` the
title-extraction LLM's answer. -/
def processSplitter (text : Str) (detectOracle : Option PatternInfo)
    (llmEpisodes : List Episode) (titleOracle : Option (List TitleItem)) : SplitResult :=
  let pi := detectPattern text detectOracle
  let (episodes, method) :=
    if ¬ pi.isMultiEpisode then ([{ number := 1, content := text.asString }], "single")
    else if pi.useInlineSplit then (inlineSplit text pi titleOracle, "inline")
    else if knownName pi.primaryPattern || knownName pi.separatorPattern then
      (regexSplit text pi llmEpisodes titleOracle, "regex")
    else (llmEpisodes, "llm")
  let confidence := pathConfidence pi
  let validation := validateSplit episodes pi text
  { episodes := episodes, isMultiEpisode := pi.isMultiEpisode, method := method,
    totalEpisodes := episodes.length,
    confidence := min confidence validation.confidence,
    warnings := validation.warnings }

end Splitter

/-! ## Concrete instances used by the theorems below -/

/-- The C5 scenario text: a Korean clause left in a Japanese translation. -/
def c5text : String := "그는 집에 갔다와서 彼は家に帰った"

/-- Korean→Japanese validator with an empty glossary. -/
def c5validator : TranslationQA.Validator :=
  TranslationQA.mkValidator "korean" "japanese" ⟨[]⟩ none

/-- A `glossary_mismatch` issue whose text does not occur in the text it is
applied to. -/
def c2staleIssue : TranslationQA.QAIssue :=
  { type := "glossary_mismatch", severity := "error", text := "xyz",
    message := "m", expected := some "q" }

/-- Detection answer of the AI-assisted tier reporting the known `#N화`
pattern at confidence 60 (below the floor the spec promises). -/
def c3oracleInfo : Splitter.PatternInfo :=
  { isMultiEpisode := true,
    patterns := [⟨"#N화", Splitter.knownPatternRegexStr "#N화",
                  Splitter.knownPatternMatcher "#N화"⟩],
    primaryPattern := some "#N화",
    estimatedEpisodes := some 2,
    confidence := 60 }

/-- A manuscript whose `#N화` separators appear only twice (below the
direct-detection threshold). -/
def c3text : String := "#1화\nhello\n#2화\nworld"

/-- A manuscript with one `$NNN` line and one `* * *$NNN` line: the combined
pattern matches only 2 lines. -/
def c4text : String := "$001aaa\n* * *$002bbb"

/-- Manuscript with back-to-back `#N화` separators (3 matches, so the direct
tier accepts it). -/
def c7text : String := "#1화\n#2화\n#3화\nhello"

/-- A single-entry multi-pattern list for the `#N화` pattern. -/
def c7entry : Splitter.PatternEntry :=
  ⟨"#N화", Splitter.knownPatternRegexStr "#N화", Splitter.knownPatternMatcher "#N화"⟩

/-- Pattern info used to exercise the split strategies directly. -/
def c7patternInfo : Splitter.PatternInfo :=
  { isMultiEpisode := true,
    patterns := [c7entry],
    primaryPattern := some "#N화",
    estimatedEpisodes := some 1,
    confidence := 95 }

/-- The pattern info the direct-detection best-pattern branch returns on
`c7text` (three `#N화` lines). -/
def c4bestInfo : Splitter.PatternInfo :=
  { isMultiEpisode := true,
    patterns := [⟨"#N화", Splitter.knownPatternRegexStr "#N화",
                  Splitter.knownPatternMatcher "#N화"⟩],
    primaryPattern := some "#N화",
    patternRegexStr := some (Splitter.knownPatternRegexStr "#N화"),
    patternRegex := some (Splitter.knownPatternMatcher "#N화"),
    estimatedEpisodes := some 3,
    confidence := 95 }

/-- A duplicate glossary term. -/
def c8dupTerm : GlossaryMgr.Term :=
  { original := "아이든", translation := "アイデン", category := "character" }

/-- An iteration outcome stream whose every pass finds 3 errors and applies
no fix. -/
def c9stalledIter : Nat → Stage02a.IterOutcome := fun _ => ⟨3, 0⟩

/-- The guard of the two string-replacement branches of `auto_fix`
(`glossary_mismatch`/`untranslated_term` with a truthy `expected`): the only
kind of issue the first loop can silently skip. -/
def TranslationQA.replPred (i : TranslationQA.QAIssue) : Bool :=
  (i.type = "glossary_mismatch" || i.type = "untranslated_term") &&
    TranslationQA.truthyOpt i.expected

/-- The guard of the language-mixing collection branch of `auto_fix`. -/
def TranslationQA.mixErrPred (i : TranslationQA.QAIssue) : Bool :=
  i.type = "language_mixing" && i.severity = "error"

/-! ## Helper lemmas -/

namespace Splitter

theorem validateSplit_confidence_ge (episodes : List Episode) (pi : PatternInfo)
    (text : Str) : 70 ≤ (validateSplit episodes pi text).confidence := by
  simp only [validateSplit]
  exact le_max_right _ _

theorem validateSplit_confidence_le (episodes : List Episode) (pi : PatternInfo)
    (text : Str) : (validateSplit episodes pi text).confidence ≤ 100 := by
  simp only [validateSplit]
  rw [max_le_iff]
  refine ⟨?_, by norm_num⟩
  split_ifs <;> omega

theorem extractTitles_none (l : List Episode) : extractTitles l none = l := by
  unfold extractTitles
  split
  · simp
  · rename_i items heq
    exact Option.noConfusion heq

theorem handleSpecialEpisodes_content (l : List Episode) (pi : PatternInfo) (ep : Episode)
    (h : ep ∈ handleSpecialEpisodes l pi) : ∃ e ∈ l, e.content = ep.content := by
  unfold handleSpecialEpisodes at h
  rcases hepi : pi.epilogue with _ | epi
  all_goals simp only [hepi] at h
  · exact ⟨ep, h, rfl⟩
  · split at h
    · rcases hlast : l.getLast? with _ | last
      all_goals simp only [hlast] at h
      · exact ⟨ep, h, rfl⟩
      · split at h
        · rcases List.mem_append.mp h with hmem | hmem
          · exact ⟨ep, List.dropLast_subset _ hmem, rfl⟩
          · have he : ep = { last with title := some epi } := List.mem_singleton.mp hmem
            subst he
            rcases List.mem_getLast?_eq_getLast hlast with ⟨hne, heq⟩
            exact ⟨last, heq ▸ List.getLast_mem hne, rfl⟩
        · exact ⟨ep, h, rfl⟩
    · exact ⟨ep, h, rfl⟩

theorem foldl_maxBy_mem (p : String × Nat) (ps : List (String × Nat)) :
    ps.foldl (fun b q => if q.2 > b.2 then q else b) p ∈ p :: ps := by
  induction ps generalizing p with
  | nil => exact List.mem_singleton.mpr rfl
  | cons q qs ih =>
    simp only [List.foldl_cons]
    rcases List.mem_cons.mp (ih (if q.2 > p.2 then q else p)) with h | h
    · rw [h]
      split
      · exact List.mem_cons_of_mem _ (List.mem_cons_self _ _)
      · exact List.mem_cons_self _ _
    · exact List.mem_cons_of_mem _ (List.mem_cons_of_mem _ h)

theorem patternCounts_snd (text : Str) (q : String × Nat) (h : q ∈ patternCounts text) :
    q.2 = countLineMatches q.1 text := by
  unfold patternCounts at h
  rcases List.mem_filter.mp h with ⟨hmem, _⟩
  rcases List.mem_map.mp hmem with ⟨name, _, heq⟩
  rw [← heq]

/-- Membership in the filter→special-episodes→no-title pipeline shared by the
multi-pattern and inline splits implies nonempty stripped content. -/
theorem mem_filtered_pipeline (l : List Episode) (pi : PatternInfo) (ep : Episode)
    (h : ep ∈ extractTitles
      (handleSpecialEpisodes (l.filter (fun e => pyStrip e.content.data ≠ [])) pi) none) :
    pyStrip ep.content.data ≠ [] := by
  rw [extractTitles_none] at h
  rcases handleSpecialEpisodes_content _ _ _ h with ⟨e, he, hcontent⟩
  rcases List.mem_filter.mp he with ⟨_, hne⟩
  rw [← hcontent]
  simpa using hne

end Splitter

namespace TranslationQA

theorem autoFixStep_shape (st : AutoFixState) (i : QAIssue) :
    ((autoFixStep st i).fc = st.fc + 1 ∧ (autoFixStep st i).unfixed = st.unfixed ∧
      (autoFixStep st i).langMix = st.langMix ∧ replPred i = true) ∨
    ((autoFixStep st i).fc = st.fc ∧ (autoFixStep st i).unfixed = st.unfixed ∧
      (autoFixStep st i).langMix = st.langMix ++ [i] ∧ mixErrPred i = true) ∨
    ((autoFixStep st i).fc = st.fc ∧ (autoFixStep st i).unfixed = st.unfixed ++ [i] ∧
      (autoFixStep st i).langMix = st.langMix) ∨
    (autoFixStep st i = st ∧ replPred i = true) := by
  unfold autoFixStep replPred mixErrPred
  split_ifs with h1 h2 h3 h4 h5 <;> simp_all

theorem autoFixLoop_acct (issues : List QAIssue) (st : AutoFixState) :
    ((issues.foldl autoFixStep st).fc + (issues.foldl autoFixStep st).unfixed.length +
        (issues.foldl autoFixStep st).langMix.length ≤
      st.fc + st.unfixed.length + st.langMix.length + issues.length) ∧
    (st.fc + st.unfixed.length + st.langMix.length + issues.length ≤
      (issues.foldl autoFixStep st).fc + (issues.foldl autoFixStep st).unfixed.length +
        (issues.foldl autoFixStep st).langMix.length + issues.countP replPred) ∧
    (∀ i ∈ (issues.foldl autoFixStep st).unfixed, i ∈ st.unfixed ∨ i ∈ issues) ∧
    (∀ i ∈ (issues.foldl autoFixStep st).langMix, i ∈ st.langMix ∨ i ∈ issues) ∧
    ((issues.foldl autoFixStep st).langMix.length ≤
      st.langMix.length + issues.countP mixErrPred) := by
  induction issues generalizing st with
  | nil => simp
  | cons i rest ih =>
    simp only [List.foldl_cons, List.countP_cons, List.length_cons]
    obtain ⟨ih1, ih2, ih3, ih4, ih5⟩ := ih (autoFixStep st i)
    have hle : ∀ p : Bool, (if p = true then 1 else 0) ≤ 1 := by
      intro p; split <;> omega
    have memU : ∀ j ∈ (rest.foldl autoFixStep (autoFixStep st i)).unfixed,
        j ∈ (autoFixStep st i).unfixed ∨ j ∈ i :: rest := by
      intro j hj
      rcases ih3 j hj with h | h
      · exact Or.inl h
      · exact Or.inr (List.mem_cons_of_mem _ h)
    have memL : ∀ j ∈ (rest.foldl autoFixStep (autoFixStep st i)).langMix,
        j ∈ (autoFixStep st i).langMix ∨ j ∈ i :: rest := by
      intro j hj
      rcases ih4 j hj with h | h
      · exact Or.inl h
      · exact Or.inr (List.mem_cons_of_mem _ h)
    have push : ∀ (base : List QAIssue) (j : QAIssue),
        j ∈ base ++ [i] ∨ j ∈ i :: rest → j ∈ base ∨ j ∈ i :: rest := by
      intro base j hj
      rcases hj with h | h
      · rcases List.mem_append.mp h with h' | h'
        · exact Or.inl h'
        · exact Or.inr (List.mem_singleton.mp h' ▸ List.mem_cons_self _ _)
      · exact Or.inr h
    rcases autoFixStep_shape st i with ⟨e1, e2, e3, hp⟩ | ⟨e1, e2, e3, hp⟩ |
      ⟨e1, e2, e3⟩ | ⟨heq, hp⟩
    · have l2 : (autoFixStep st i).unfixed.length = st.unfixed.length := by rw [e2]
      have l3 : (autoFixStep st i).langMix.length = st.langMix.length := by rw [e3]
      have hif : (if replPred i = true then (1 : Nat) else 0) = 1 := by simp [hp]
      rw [e2] at memU
      rw [e3] at memL
      exact ⟨by omega, by have := hle (replPred i); omega, memU, memL,
        by have := hle (mixErrPred i); omega⟩
    · have l2 : (autoFixStep st i).unfixed.length = st.unfixed.length := by rw [e2]
      have l3 : (autoFixStep st i).langMix.length = st.langMix.length + 1 := by
        rw [e3]; simp
      have hif : (if mixErrPred i = true then (1 : Nat) else 0) = 1 := by simp [hp]
      rw [e2] at memU
      rw [e3] at memL
      exact ⟨by omega, by have := hle (replPred i); omega, memU,
        fun j hj => push _ j (memL j hj), by omega⟩
    · have l2 : (autoFixStep st i).unfixed.length = st.unfixed.length + 1 := by
        rw [e2]; simp
      have l3 : (autoFixStep st i).langMix.length = st.langMix.length := by rw [e3]
      rw [e2] at memU
      rw [e3] at memL
      exact ⟨by have := hle (replPred i); omega,
        by have := hle (replPred i); omega,
        fun j hj => push _ j (memU j hj), memL, by have := hle (mixErrPred i); omega⟩
    · rw [heq] at ih1 ih2 ih5 memU memL ⊢
      have hif : (if replPred i = true then (1 : Nat) else 0) = 1 := by simp [hp]
      exact ⟨by omega, by omega, memU, memL, by have := hle (mixErrPred i); omega⟩

end TranslationQA

namespace TranslationQA

theorem fixLanguageMixingStep_shape (oracle : SegmentOracle)
    (s : Str × Nat × List QAIssue) (i : QAIssue) :
    ((fixLanguageMixingStep oracle s i).2.1 = s.2.1 + 1 ∧
      (fixLanguageMixingStep oracle s i).2.2 = s.2.2) ∨
    ((fixLanguageMixingStep oracle s i).2.1 = s.2.1 ∧
      (fixLanguageMixingStep oracle s i).2.2 = s.2.2 ++ [i]) ∨
    (fixLanguageMixingStep oracle s i = s) := by
  obtain ⟨ft, fc, unf⟩ := s
  unfold fixLanguageMixingStep
  dsimp only
  split_ifs with h1
  · rcases oracle i.text with _ | out
    · simp
    · dsimp only
      split_ifs with h2 h3 <;> simp
  · simp

theorem fixLanguageMixing_loop_acct (issues : List QAIssue)
    (s : Str × Nat × List QAIssue) (oracle : SegmentOracle) :
    ((issues.foldl (fixLanguageMixingStep oracle) s).2.1 +
        (issues.foldl (fixLanguageMixingStep oracle) s).2.2.length ≤
      s.2.1 + s.2.2.length + issues.length) ∧
    (∀ i ∈ (issues.foldl (fixLanguageMixingStep oracle) s).2.2,
      i ∈ s.2.2 ∨ i ∈ issues) := by
  induction issues generalizing s with
  | nil => simp
  | cons i rest ih =>
    simp only [List.foldl_cons, List.length_cons]
    obtain ⟨ih1, ih2⟩ := ih (fixLanguageMixingStep oracle s i)
    have memNext : ∀ j ∈ (rest.foldl (fixLanguageMixingStep oracle)
        (fixLanguageMixingStep oracle s i)).2.2,
        j ∈ (fixLanguageMixingStep oracle s i).2.2 ∨ j ∈ i :: rest := by
      intro j hj
      rcases ih2 j hj with h | h
      · exact Or.inl h
      · exact Or.inr (List.mem_cons_of_mem _ h)
    rcases fixLanguageMixingStep_shape oracle s i with ⟨e1, e2⟩ | ⟨e1, e2⟩ | heq
    · have l2 : (fixLanguageMixingStep oracle s i).2.2.length = s.2.2.length := by rw [e2]
      rw [e2] at memNext
      exact ⟨by omega, memNext⟩
    · have l2 : (fixLanguageMixingStep oracle s i).2.2.length = s.2.2.length + 1 := by
        rw [e2]; simp
      rw [e2] at memNext
      refine ⟨by omega, ?_⟩
      intro j hj
      rcases memNext j hj with h | h
      · rcases List.mem_append.mp h with h' | h'
        · exact Or.inl h'
        · exact Or.inr (List.mem_singleton.mp h' ▸ List.mem_cons_self _ _)
      · exact Or.inr h
    · rw [heq] at ih1 memNext ⊢
      exact ⟨by omega, memNext⟩

end TranslationQA

namespace GlossaryMgr

theorem addTerm_nodup (st : GlossaryState) (o t c fa ctx : String)
    (hst : (st.map Term.original).Nodup) :
    (((addTerm st o t c fa ctx).map Term.original).Nodup) := by
  unfold addTerm
  rcases hfind : findTerm st o with _ | term
  · have hno : o ∉ st.map Term.original := by
      intro hmem
      rcases List.mem_map.mp hmem with ⟨te, hte, heq⟩
      have := List.find?_eq_none.mp hfind te hte
      simp [heq] at this
    simp [List.nodup_append, hst, hno]
  · exact hst

theorem runOps_nodup_aux (ops : List GlossOp) (st : GlossaryState)
    (hst : (st.map Term.original).Nodup)
    (hops : ∀ op ∈ ops, opSeedsDistinct op) :
    (((ops.foldl applyOp st).map Term.original).Nodup) := by
  induction ops generalizing st with
  | nil => simpa
  | cons op rest ih =>
    simp only [List.foldl_cons]
    refine ih _ ?_ (fun op' hop' => hops _ (List.mem_cons_of_mem _ hop'))
    cases op with
    | create ts => exact hops _ (List.mem_cons_self _ _)
    | addTerm o t c fa ctx => exact addTerm_nodup st o t c fa ctx hst

end GlossaryMgr

/-! ## Claim theorems -/

/-- **C1**: for the Taiwanese target language, given the glossary consisting
of the character terms `이서연 → 李書妍` and `서연 → 舒妍`,
`enforce_name_consistency` corrects the `서연` term to `書妍` (the given-name
part of the full name's translation), not `舒妍`. -/
theorem c1_enforce_name_consistency_given_name :
    (Stage02.enforceNameConsistency
        [⟨"이서연", "李書妍", "character"⟩, ⟨"서연", "舒妍", "character"⟩]
        "taiwanese").map (fun t => (t.original, t.translation)) =
      [("이서연", "李書妍"), ("서연", "書妍")] := by
  decide

/-- **C10**: for every validator whose source language is anything other than
`"korean"`, `check_language_mixing` returns an empty issue list on every
input text. -/
theorem c10_non_korean_no_mixing (v : TranslationQA.Validator) (text : String)
    (h : v.sourceLang ≠ "korean") :
    TranslationQA.checkLanguageMixing v text = [] := by
  unfold TranslationQA.checkLanguageMixing
  simp [h]

/-- Witness for C10: a Japanese-source validator reports no language-mixing
issues even on text that is entirely Korean. -/
theorem c10_non_korean_no_mixing_witness :
    TranslationQA.checkLanguageMixing
      (TranslationQA.mkValidator "japanese" "taiwanese" ⟨[]⟩ none) "안녕하세요" = [] :=
  c10_non_korean_no_mixing _ _ (by decide)

/-- **C9**: whenever a retry iteration of the stage-2a auto-fix loop applies
zero fixes while error-severity issues remain, the loop exits immediately
after that iteration (final `retry_count` is that iteration's), regardless of
the remaining `max_retries` budget. -/
theorem c9_retry_stops_on_zero_fixes (autoFixFlag : Bool) (maxRetries : Nat)
    (iter : Nat → Stage02a.IterOutcome) (fuel retryCount : Nat)
    (hlt : retryCount < maxRetries)
    (hfix : (iter (retryCount + 1)).fixed = 0)
    (herr : 0 < (iter (retryCount + 1)).errors) :
    Stage02a.qaRetryLoopAux autoFixFlag maxRetries iter (fuel + 1) retryCount =
      retryCount + 1 := by
  unfold Stage02a.qaRetryLoopAux
  have herr' : ¬ ((iter (retryCount + 1)).errors = 0) := by omega
  cases autoFixFlag <;> simp [hlt, herr', hfix, herr]

/-- Witness for C9: with a 5-iteration budget and every pass reporting
3 errors and 0 fixes, the loop performs exactly one iteration. -/
theorem c9_retry_stops_on_zero_fixes_witness :
    Stage02a.qaRetryLoop true 5 c9stalledIter = 1 :=
  c9_retry_stops_on_zero_fixes true 5 c9stalledIter 4 0 (by decide) (by decide) (by decide)

/-- **C5** counterexample: validating `"그는 집에 갔다와서 彼は家に帰った"` with
source `korean` and target `japanese` yields three `language_mixing` issues,
not exactly one — the Korean-syllable regex matches each space-separated run
separately. -/
theorem c5_single_issue_counterexample :
    (TranslationQA.validateText c5validator c5text none).issues.length = 3 ∧
    (TranslationQA.validateText c5validator c5text none).issues.length ≠ 1 := by
  constructor
  · decide
  · decide

/-- **C5** (amended): validating the text yields exactly three
`language_mixing` issues, all of `error` severity (none is downgraded by the
onomatopoeia allow-list), whose `text` fields are the three space-separated
Korean runs `그는`, `집에` and `갔다와서`; the result does not pass. -/
theorem c5_language_mixing_runs_amended :
    (TranslationQA.validateText c5validator c5text none).issues.map
        (fun i => (i.type, i.severity, i.text)) =
      [("language_mixing", "error", "그는"),
       ("language_mixing", "error", "집에"),
       ("language_mixing", "error", "갔다와서")] ∧
    (TranslationQA.validateText c5validator c5text none).passed = false := by
  constructor
  · decide
  · decide

/-- **C2** counterexample: `auto_fix` applied to the single issue
`glossary_mismatch "xyz" → "q"` on the text `"abc"` (where `"xyz"` does not
occur) fixes nothing and returns an *empty* unfixed list — the issue is
silently dropped rather than fixed or reported. -/
theorem c2_issue_dropped_counterexample :
    TranslationQA.autoFix "abc" [c2staleIssue] none = ("abc", 0, []) ∧
    ([c2staleIssue].length = 1) := by
  constructor
  · decide
  · decide

theorem fixLanguageMixing_acct (ft : Str) (issues : List TranslationQA.QAIssue)
    (oracle : TranslationQA.SegmentOracle) :
    ((TranslationQA.fixLanguageMixing ft issues oracle).2.1 +
        (TranslationQA.fixLanguageMixing ft issues oracle).2.2.length ≤ issues.length) ∧
    (∀ i ∈ (TranslationQA.fixLanguageMixing ft issues oracle).2.2, i ∈ issues) := by
  obtain ⟨m1, m2⟩ := TranslationQA.fixLanguageMixing_loop_acct issues (ft, 0, []) oracle
  dsimp only at m1 m2
  simp only [List.length_nil, Nat.add_zero] at m1 m2
  unfold TranslationQA.fixLanguageMixing
  refine ⟨by omega, ?_⟩
  intro i hi
  rcases m2 i hi with h | h
  · simp at h
  · exact h

/-- **C2** (amended): every issue given to `auto_fix` is fixed (counted in
`fixed_count`), returned in `unfixed_issues`, or silently skipped, and
skipping can only happen to replacement-type issues
(`glossary_mismatch`/`untranslated_term` with a truthy `expected`) or — when
an LLM processor is supplied — to error-severity `language_mixing` issues
whose text has already disappeared from the partially-fixed text; in
particular `fixed_count + |unfixed| ≤ |issues|`, every unfixed issue comes
from the input, and the deficit is bounded by the number of skippable
issues. -/
theorem c2_auto_fix_accounting_amended (text : String)
    (issues : List TranslationQA.QAIssue) (llm : Option TranslationQA.SegmentOracle) :
    ((TranslationQA.autoFix text issues llm).2.1 +
        (TranslationQA.autoFix text issues llm).2.2.length ≤ issues.length) ∧
    (∀ i ∈ (TranslationQA.autoFix text issues llm).2.2, i ∈ issues) ∧
    (issues.length ≤ (TranslationQA.autoFix text issues llm).2.1 +
        (TranslationQA.autoFix text issues llm).2.2.length +
        issues.countP TranslationQA.replPred +
        (if llm.isSome then issues.countP TranslationQA.mixErrPred else 0)) := by
  obtain ⟨l1, l2, l3, l4, l5⟩ :=
    TranslationQA.autoFixLoop_acct issues ⟨text.data, 0, [], []⟩
  simp only [List.length_nil, Nat.add_zero, Nat.zero_add] at l1 l2 l3 l4 l5
  have hU : ∀ i ∈ (issues.foldl TranslationQA.autoFixStep
      ⟨text.data, 0, [], []⟩).unfixed, i ∈ issues := by
    intro i hi
    rcases l3 i hi with h' | h'
    · simp at h'
    · exact h'
  have hL : ∀ i ∈ (issues.foldl TranslationQA.autoFixStep
      ⟨text.data, 0, [], []⟩).langMix, i ∈ issues := by
    intro i hi
    rcases l4 i hi with h' | h'
    · simp at h'
    · exact h'
  unfold TranslationQA.autoFix
  rcases llm with _ | oracle
  · -- no LLM processor: the unfixed list is `unfixed ++ langMix`
    simp only [Option.isSome_none, Bool.false_eq_true, if_false]
    split_ifs with hne
    · dsimp only
      refine ⟨?_, ?_, ?_⟩
      · simp only [List.length_append]; omega
      · intro i hi
        rcases List.mem_append.mp hi with h | h
        · exact hU i h
        · exact hL i h
      · simp only [List.length_append]; omega
    · have hlm : (issues.foldl TranslationQA.autoFixStep
          ⟨text.data, 0, [], []⟩).langMix = [] := by
        by_contra hc
        exact hne hc
      rw [hlm] at l1 l2
      simp only [List.length_nil] at l1 l2
      dsimp only
      exact ⟨by omega, hU, by omega⟩
  · -- with an LLM processor: the mixing pass handles `langMix`
    simp only [Option.isSome_some, if_true]
    obtain ⟨m1, m2⟩ := fixLanguageMixing_acct
      (issues.foldl TranslationQA.autoFixStep ⟨text.data, 0, [], []⟩).ft
      (issues.foldl TranslationQA.autoFixStep ⟨text.data, 0, [], []⟩).langMix
      oracle
    split_ifs with hne
    · rcases hfm : TranslationQA.fixLanguageMixing
          (issues.foldl TranslationQA.autoFixStep ⟨text.data, 0, [], []⟩).ft
          (issues.foldl TranslationQA.autoFixStep ⟨text.data, 0, [], []⟩).langMix
          oracle with ⟨mft, mfc, munf⟩
      rw [hfm] at m1 m2
      dsimp only at m1 m2 ⊢
      refine ⟨?_, ?_, ?_⟩
      · simp only [List.length_append]
        omega
      · intro i hi
        rcases List.mem_append.mp hi with h | h
        · exact hU i h
        · exact hL i (m2 i h)
      · simp only [List.length_append]
        omega
    · have hlm : (issues.foldl TranslationQA.autoFixStep
          ⟨text.data, 0, [], []⟩).langMix = [] := by
        by_contra hc
        exact hne hc
      rw [hlm] at l1 l2
      simp only [List.length_nil] at l1 l2
      dsimp only
      exact ⟨by omega, hU, by omega⟩

/-- **C8** counterexample: `create` seeded with a terms list that already
contains two entries with the same original yields a glossary whose stored
originals are *not* pairwise distinct, refuting the claim for arbitrary
sequences of `create`/`add_term` calls. -/
theorem c8_create_duplicates_counterexample :
    ¬ (((GlossaryMgr.runOps [GlossaryMgr.GlossOp.create [c8dupTerm, c8dupTerm]]).map
        GlossaryMgr.Term.original).Nodup) := by
  decide

/-- **C8** (amended): `add_term` with an already-present original leaves the
term list unchanged, and after any sequence of `create`/`add_term` calls in
which every `create` seeds pairwise-distinct originals (in particular, none
at all), the stored originals are pairwise distinct. -/
theorem c8_uniqueness_amended :
    (∀ (st : GlossaryMgr.GlossaryState) (o t c fa ctx : String),
      (GlossaryMgr.findTerm st o).isSome →
        GlossaryMgr.addTerm st o t c fa ctx = st) ∧
    (∀ ops : List GlossaryMgr.GlossOp,
      (∀ op ∈ ops, GlossaryMgr.opSeedsDistinct op) →
      (((GlossaryMgr.runOps ops).map GlossaryMgr.Term.original).Nodup)) := by
  constructor
  · intro st o t c fa ctx h
    unfold GlossaryMgr.addTerm
    rcases hfind : GlossaryMgr.findTerm st o with _ | term
    · rw [hfind] at h
      simp at h
    · rfl
  · intro ops hops
    exact GlossaryMgr.runOps_nodup_aux ops [] (by simp) hops

/-- Witness for C8: adding a term whose original is already stored is a no-op,
and a concrete `create`/`add_term` sequence with distinct seeds produces
pairwise-distinct originals. -/
theorem c8_uniqueness_amended_witness :
    GlossaryMgr.addTerm [c8dupTerm] "아이든" "違う" "character" "" "" = [c8dupTerm] ∧
    (((GlossaryMgr.runOps
        [GlossaryMgr.GlossOp.create [],
         GlossaryMgr.GlossOp.addTerm "아이든" "アイデン" "character" "" "",
         GlossaryMgr.GlossOp.addTerm "아이든" "違う" "character" "" ""]).map
        GlossaryMgr.Term.original).Nodup) :=
  ⟨c8_uniqueness_amended.1 [c8dupTerm] "아이든" "違う" "character" "" "" (by decide),
   c8_uniqueness_amended.2 _ (by decide)⟩

namespace Splitter

theorem processSplitter_confidence_eq (text : Str) (dO : Option PatternInfo)
    (llmEps : List Episode) (tO : Option (List TitleItem)) :
    (processSplitter text dO llmEps tO).confidence =
      min (pathConfidence (detectPattern text dO))
        ((validateSplit (processSplitter text dO llmEps tO).episodes
          (detectPattern text dO) text).confidence) := rfl

end Splitter

/-- **C3** counterexample: for the manuscript `"#1화\nhello\n#2화\nworld"`
(two `#N화` lines, below the direct-detection threshold) with the AI-assisted
tier reporting the known `#N화` pattern at confidence 60, the splitter's
final reported confidence is 60 — below the promised floor of 70. -/
theorem c3_confidence_below_floor_counterexample :
    (Splitter.processSplitter c3text.data (some c3oracleInfo) [] none).confidence = 60 ∧
    (Splitter.processSplitter c3text.data (some c3oracleInfo) [] none).confidence < 70 := by
  constructor
  · decide
  · decide

/-- **C3** (amended): the *validation* confidence is always floored at 70,
and the final reported confidence (the minimum of the splitting-path
confidence and the validation confidence) is at least 70 whenever the
splitting-path confidence is — which holds on the single-episode (100) and
direct-detection (95) paths; an LLM-reported confidence below 70 passes
through to the final result. -/
theorem c3_confidence_floor_amended (text : Str) (dO : Option Splitter.PatternInfo)
    (llmEps : List Splitter.Episode) (tO : Option (List Splitter.TitleItem))
    (h : 70 ≤ Splitter.pathConfidence (Splitter.detectPattern text dO)) :
    (70 ≤ (Splitter.processSplitter text dO llmEps tO).confidence) ∧
    ∀ (episodes : List Splitter.Episode) (pi : Splitter.PatternInfo) (t : Str),
      70 ≤ (Splitter.validateSplit episodes pi t).confidence := by
  refine ⟨?_, fun e p t => Splitter.validateSplit_confidence_ge e p t⟩
  rw [Splitter.processSplitter_confidence_eq]
  exact le_min h (Splitter.validateSplit_confidence_ge _ _ _)

/-- Witness for C3 (amended): on the path where detection falls back to a
single episode the path confidence is 100, so the final confidence stays at
or above 70 (it is 95 here). -/
theorem c3_confidence_floor_amended_witness :
    70 ≤ Splitter.pathConfidence (Splitter.detectPattern "hello".data none) ∧
    70 ≤ (Splitter.processSplitter "hello".data none [] none).confidence :=
  ⟨by decide, (c3_confidence_floor_amended "hello".data none [] none (by decide)).1⟩

/-- **C6** counterexample: for the single-word manuscript `"hello"` (no
separators anywhere, detection falls back to a single episode) the splitter
takes the single-episode path but reports final confidence 95, not 100 — the
validation deduction for very short episodes still applies. -/
theorem c6_confidence_100_counterexample :
    (Splitter.processSplitter "hello".data none [] none).method = "single" ∧
    (Splitter.processSplitter "hello".data none [] none).confidence = 95 ∧
    (Splitter.processSplitter "hello".data none [] none).confidence ≠ 100 := by
  refine ⟨?_, ?_, ?_⟩
  · decide
  · decide
  · decide

/-- **C6** (amended): whenever pattern detection concludes the manuscript is
a single episode (including the fallback), the splitter returns exactly one
episode whose content is the input text verbatim (not trimmed), with
splitting-path confidence 100; the validation step still runs, so the final
reported confidence equals the validation confidence, which lies between 70
and 100 (e.g. 95 for a manuscript of fewer than 20 words). -/
theorem c6_single_episode_amended (text : Str) (dO : Option Splitter.PatternInfo)
    (llmEps : List Splitter.Episode) (tO : Option (List Splitter.TitleItem))
    (h : (Splitter.detectPattern text dO).isMultiEpisode = false) :
    (Splitter.processSplitter text dO llmEps tO).episodes =
      [{ number := 1, title := none, content := text.asString }] ∧
    (Splitter.processSplitter text dO llmEps tO).confidence =
      (Splitter.validateSplit [{ number := 1, title := none, content := text.asString }]
        (Splitter.detectPattern text dO) text).confidence ∧
    70 ≤ (Splitter.processSplitter text dO llmEps tO).confidence := by
  have hpc : Splitter.pathConfidence (Splitter.detectPattern text dO) = 100 := by
    unfold Splitter.pathConfidence
    simp [h]
  have heps : (Splitter.processSplitter text dO llmEps tO).episodes =
      [{ number := 1, title := none, content := text.asString }] := by
    unfold Splitter.processSplitter
    simp [h]
  refine ⟨heps, ?_, ?_⟩
  · rw [Splitter.processSplitter_confidence_eq, hpc, heps]
    exact min_eq_right (Splitter.validateSplit_confidence_le _ _ _)
  · rw [Splitter.processSplitter_confidence_eq]
    refine le_min ?_ (Splitter.validateSplit_confidence_ge _ _ _)
    rw [hpc]
    norm_num

/-- Witness for C6 (amended): the fallback detection on `"hello"` is
single-episode; the lone episode carries the text verbatim and the final
confidence is at least 70. -/
theorem c6_single_episode_amended_witness :
    (Splitter.detectPattern "hello".data none).isMultiEpisode = false ∧
    (Splitter.processSplitter "hello".data none [] none).episodes =
      [{ number := 1, title := none, content := "hello" }] ∧
    70 ≤ (Splitter.processSplitter "hello".data none [] none).confidence :=
  ⟨by decide,
   (c6_single_episode_amended "hello".data none [] none (by decide)).1,
   (c6_single_episode_amended "hello".data none [] none (by decide)).2.2⟩

/-- **C4** counterexample: on a manuscript with one `$NNN` line and one
`* * *$NNN` line, direct detection accepts the combined pattern
`$NNN+* * *$NNN` at confidence 95 although that pattern matches only 2 lines
(fewer than 3). -/
theorem c4_combined_pattern_counterexample :
    ((Splitter.detectKnownPatternDirectly c4text.data).map
      (fun r => (r.primaryPattern, r.confidence, r.estimatedEpisodes))) =
      some (some "$NNN+* * *$NNN", 95, some 2) ∧
    Splitter.countLineMatches "$NNN+* * *$NNN" c4text.data = 2 := by
  exact ⟨by decide, by decide⟩

/-- **C4** (amended): the best-pattern branch of direct detection does
enforce the threshold — whenever direct detection accepts a pattern that is
neither the inline `$NNN` check nor the combined `$NNN`/`* * *$NNN` check,
the accepted pattern matched at least 3 lines (and `estimated_episodes` is
that match count); the inline and combined branches accept at confidence 95
without the 3-match requirement. -/
theorem c4_direct_detection_threshold_amended (text : Str) (r : Splitter.PatternInfo)
    (h : Splitter.detectKnownPatternDirectly text = some r)
    (hinline : r.useInlineSplit = false)
    (hcomb : r.primaryPattern ≠ some "$NNN+* * *$NNN") :
    ∃ name, r.primaryPattern = some name ∧
      3 ≤ Splitter.countLineMatches name text ∧
      r.estimatedEpisodes = some ((Splitter.countLineMatches name text : Int)) := by
  unfold Splitter.detectKnownPatternDirectly at h
  dsimp only at h
  split at h
  · -- inline branch returned `some`
    rename_i r' heq
    injection h with h
    subst h
    split at heq
    · split at heq
      · injection heq with heq
        rw [← heq] at hinline
        simp at hinline
      · exact Option.noConfusion heq
    · exact Option.noConfusion heq
  · -- `pattern_counts` branches
    split at h
    · exact Option.noConfusion h
    · split at h
      · -- combined branch
        injection h with h
        rw [← h] at hcomb
        simp at hcomb
      · -- best-pattern branch
        rename_i hne p ps hcounts hnotcomb
        split at h
        · exact Option.noConfusion h
        · split at h
          · exact Option.noConfusion h
          · rename_i p' ps' hcounts' hlt
            injection h with h
            subst h
            have hmem : (ps'.foldl (fun b q => if q.2 > b.2 then q else b) p') ∈
                Splitter.patternCounts text := by
              rw [hcounts.trans hcounts']
              exact Splitter.foldl_maxBy_mem p' ps'
            have hsnd := Splitter.patternCounts_snd text _ hmem
            refine ⟨(ps'.foldl (fun b q => if q.2 > b.2 then q else b) p').1, rfl, ?_, ?_⟩
            · rw [← hsnd]
              omega
            · show some ((ps'.foldl (fun b q => if q.2 > b.2 then q else b) p').2 : Int) = _
              rw [hsnd]

/-- Witness for C4 (amended): on a manuscript with three `#N화` lines the
best-pattern branch fires, and the accepted pattern indeed has at least
3 line matches. -/
theorem c4_direct_detection_threshold_amended_witness :
    Splitter.detectKnownPatternDirectly c7text.data = some c4bestInfo ∧
    ∃ name, c4bestInfo.primaryPattern = some name ∧
      3 ≤ Splitter.countLineMatches name c7text.data ∧
      c4bestInfo.estimatedEpisodes =
        some ((Splitter.countLineMatches name c7text.data : Int)) :=
  ⟨rfl,
   c4_direct_detection_threshold_amended c7text.data c4bestInfo rfl rfl (by decide)⟩

/-- **C7** counterexample: the single-pattern regex strategy (taken for the
direct-detected `#N화` pattern) returns episodes with empty content for the
back-to-back separators of `"#1화\n#2화\n#3화\nhello"` — it has no
empty-episode filter. -/
theorem c7_empty_episode_counterexample :
    (Splitter.processSplitter c7text.data none [] none).method = "regex" ∧
    (Splitter.processSplitter c7text.data none [] none).episodes.map
      (fun e => (e.number, e.content)) = [(1, ""), (2, ""), (3, "hello")] := by
  exact ⟨by decide, by decide⟩

namespace Splitter

theorem multiPatternRegexSplit_result_cases (text : Str) (pi : PatternInfo)
    (llmEps : List Episode) (hpat : pi.patterns ≠ []) :
    multiPatternRegexSplit text pi llmEps none =
      [{ number := 1, title := none, content := (pyLstripBOM text).asString }] ∨
    ∀ ep ∈ multiPatternRegexSplit text pi llmEps none, pyStrip ep.content.data ≠ [] := by
  unfold multiPatternRegexSplit
  rcases hp : pi.patterns with _ | ⟨e, rest⟩
  · exact absurd hp hpat
  · simp only [hp]
    split
    · rename_i heq
      exfalso
      rw [List.map_eq_nil_iff] at heq
      revert heq
      split_ifs with h1 h2 <;> simp_all
    · split
      · left; rfl
      · right
        intro ep hmem
        exact mem_filtered_pipeline _ pi ep hmem

theorem inlineSplit_result_cases (text : Str) (pi : PatternInfo) :
    inlineSplit text pi none =
      [{ number := 1, title := none, content := (pyLstripBOM text).asString }] ∨
    ∀ ep ∈ inlineSplit text pi none, pyStrip ep.content.data ≠ [] := by
  unfold inlineSplit
  dsimp only
  split
  · left; rfl
  · right
    intro ep hmem
    exact mem_filtered_pipeline _ pi ep hmem

end Splitter

/-- **C7** (amended): the multi-pattern and inline strategies drop every
episode whose content is empty after cleanup (with title extraction failing
or disabled): if such a strategy returns an episode with empty stripped
content at all, it is the whole-text single-episode fallback.  The
single-pattern regex strategy has no such filter and can return an empty
episode for back-to-back separators (see the counterexample). -/
theorem c7_empty_filter_amended (text : Str) (pi : Splitter.PatternInfo)
    (llmEps : List Splitter.Episode) (ep : Splitter.Episode) :
    (pi.patterns ≠ [] → ep ∈ Splitter.multiPatternRegexSplit text pi llmEps none →
      pyStrip ep.content.data = [] →
      Splitter.multiPatternRegexSplit text pi llmEps none =
        [{ number := 1, title := none, content := (pyLstripBOM text).asString }]) ∧
    (ep ∈ Splitter.inlineSplit text pi none → pyStrip ep.content.data = [] →
      Splitter.inlineSplit text pi none =
        [{ number := 1, title := none, content := (pyLstripBOM text).asString }]) := by
  constructor
  · intro hpat hmem hstrip
    rcases Splitter.multiPatternRegexSplit_result_cases text pi llmEps hpat with h | h
    · exact h
    · exact absurd hstrip (h ep hmem)
  · intro hmem hstrip
    rcases Splitter.inlineSplit_result_cases text pi with h | h
    · exact h
    · exact absurd hstrip (h ep hmem)

/-- Witness for C7 (amended): on the whitespace-only manuscript `" "` (no
separator matches) both strategies return the whole-text fallback episode,
which is the only way an episode with empty stripped content can appear. -/
theorem c7_empty_filter_amended_witness :
    Splitter.multiPatternRegexSplit " ".data c7patternInfo [] none =
      [{ number := 1, title := none, content := " " }] ∧
    Splitter.inlineSplit " ".data c7patternInfo none =
      [{ number := 1, title := none, content := " " }] :=
  ⟨(c7_empty_filter_amended " ".data c7patternInfo [] ⟨1, none, " "⟩).1
     (by simp [c7patternInfo]) (by decide) (by decide),
   (c7_empty_filter_amended " ".data c7patternInfo [] ⟨1, none, " "⟩).2
     (by decide) (by decide)⟩
